import Mathlib

/-
Verification model of the event-sink dispatch layer in `agent/output.py`
(python-agent): the `Kafka`, `HTTPRequest`, `Csv`, `SQLAlchemy` and `Null`
sinks, together with the JSON / gzip / base64 encoding pipeline used by the
HTTP transport sink's batch mode.

Modelling conventions:
 * Python values handled by `json.dumps` are the inductive `Json` (numbers are
   modelled as integers; this layer never fabricates a float itself).
 * Byte strings are `List Nat` with every element `< 256`.
 * gzip compression is an external library; theorems about the pipeline take
   the compressor/decompressor as an abstract pair with its round-trip
   contract, exactly the contract the code relies on.
 * Stateful sinks are structures, their methods are state-passing functions
   returning `Except Err (state × effects)`; backend writes and log lines are
   explicit `Effect`s.
-/

namespace Output

/-! ### Characters and digits -/

def isWsChar (c : Char) : Bool := c = ' ' || c = '\t' || c = '\n' || c = '\r'

def isDigitChar (c : Char) : Bool := 48 ≤ c.toNat && c.toNat ≤ 57

def skipWs (cs : List Char) : List Char := cs.dropWhile isWsChar

def digitChar (d : Nat) : Char := Char.ofNat (48 + d)

/-- Decimal digits of `n`, most significant first, in front of `acc`.
Structurally recursive on a fuel argument so that it evaluates by `rfl`;
`natChars` supplies enough fuel. -/
def natCharsF : Nat → Nat → List Char → List Char
  | 0, _, acc => acc
  | f + 1, n, acc =>
    if n < 10 then digitChar n :: acc
    else natCharsF f (n / 10) (digitChar (n % 10) :: acc)

def natChars (n : Nat) : List Char := natCharsF (n + 1) n []

/-- `repr` of a Python integer, as `json.dumps` writes it. -/
def intChars (n : Int) : List Char :=
  if n < 0 then '-' :: natChars n.natAbs else natChars n.toNat

def digitsVal (ds : List Char) : Nat := ds.foldl (fun a c => a * 10 + (c.toNat - 48)) 0

/-! ### JSON values

Shallow model of the Python values this layer hands to `json.dumps`: an event's
`raw_data` is either a mapping or a string, and mapping values may be any
JSON-serialisable value. Numbers are modelled as integers. -/

inductive Json where
  | null
  | bool (b : Bool)
  | num (n : Int)
  | str (s : String)
  | arr (items : List Json)
  | obj (fields : List (String × Json))

/-! ### Serialization: Python 2 `json.dumps` with `ensure_ascii=True` -/

def hexDigitChar (d : Nat) : Char := if d < 10 then Char.ofNat (48 + d) else Char.ofNat (87 + d)

/-- A `\uXXXX` escape with four lowercase hex digits. -/
def uEscape (n : Nat) : List Char :=
  ['\\', 'u', hexDigitChar (n / 4096 % 16), hexDigitChar (n / 256 % 16),
   hexDigitChar (n / 16 % 16), hexDigitChar (n % 16)]

/-- One character of a JSON string, escaped the way Python 2's
`py_encode_basestring_ascii` writes it: the short escapes of `ESCAPE_DCT`,
printable ASCII verbatim, everything else as `\uXXXX` (a surrogate pair
beyond the BMP). -/
def escapeChar (c : Char) : List Char :=
  if c = '"' then ['\\', '"']
  else if c = '\\' then ['\\', '\\']
  else if c = '\n' then ['\\', 'n']
  else if c = '\r' then ['\\', 'r']
  else if c = '\t' then ['\\', 't']
  else if c.toNat = 8 then ['\\', 'b']
  else if c.toNat = 12 then ['\\', 'f']
  else if 32 ≤ c.toNat ∧ c.toNat ≤ 126 then [c]
  else if c.toNat < 65536 then uEscape c.toNat
  else uEscape (55296 + (c.toNat - 65536) / 1024) ++ uEscape (56320 + (c.toNat - 65536) % 1024)

def escapeChars (l : List Char) : List Char := (l.map escapeChar).flatten

def quoteChars (s : String) : List Char := '"' :: (escapeChars s.data ++ ['"'])

mutual
/-- `json.dumps(v, separators=(isep, ksep))` as a character list. Python 2's
defaults (with `indent=None`) are `isep = ", "` and `ksep = ": "`; the
compact form used by `HTTPRequest.data` passes `(",", ":")`. -/
def dumpChars (isep ksep : List Char) : Json → List Char
  | .null => ['n', 'u', 'l', 'l']
  | .num n => intChars n
  | .bool true => ['t', 'r', 'u', 'e']
  | .str s => quoteChars s
  | .bool false => ['f', 'a', 'l', 's', 'e']
  | .arr xs => '[' :: (dumpItems isep ksep xs ++ [']'])
  | .obj fs => Char.ofNat 123 :: (dumpFields isep ksep fs ++ [Char.ofNat 125])

def dumpItems (isep ksep : List Char) : List Json → List Char
  | [] => []
  | [x] => dumpChars isep ksep x
  | x :: y :: t => dumpChars isep ksep x ++ isep ++ dumpItems isep ksep (y :: t)

def dumpFields (isep ksep : List Char) : List (String × Json) → List Char
  | [] => []
  | [(k, v)] => quoteChars k ++ ksep ++ dumpChars isep ksep v
  | (k, v) :: f :: t =>
    quoteChars k ++ ksep ++ dumpChars isep ksep v ++ isep ++ dumpFields isep ksep (f :: t)
end

/-- `json.dumps(v, separators=(isep, ksep))` as a `String`. -/
def dumps (isep ksep : String) (v : Json) : String :=
  String.mk (dumpChars isep.data ksep.data v)

/-! ### The receiver's JSON parser

The spec's encoding round-trip claim says the receiver recovers the original
payload list by JSON-parsing; this is that parse, on the integer-number
subset of JSON this layer ever produces. -/

def escDecode (e : Char) : Option Char :=
  if e = '"' then some '"'
  else if e = '\\' then some '\\'
  else if e = '/' then some '/'
  else if e = 'b' then some (Char.ofNat 8)
  else if e = 'f' then some (Char.ofNat 12)
  else if e = 'n' then some '\n'
  else if e = 'r' then some '\r'
  else if e = 't' then some '\t'
  else none

def hexVal (c : Char) : Option Nat :=
  if 48 ≤ c.toNat ∧ c.toNat ≤ 57 then some (c.toNat - 48)
  else if 97 ≤ c.toNat ∧ c.toNat ≤ 102 then some (c.toNat - 87)
  else if 65 ≤ c.toNat ∧ c.toNat ≤ 70 then some (c.toNat - 55)
  else none

mutual
/-- Parse the body of a JSON string after the opening quote, returning the
decoded characters and the input remaining after the closing quote.
`\uXXXX` escapes in the surrogate range must come as a high/low pair. -/
def parseStrBody : List Char → Option (List Char × List Char)
  | [] => none
  | c :: rest =>
    if c = '\\' then parseEsc rest
    else if c = '"' then some ([], rest)
    else if c.toNat < 32 then none
    else (parseStrBody rest).map (fun p => (c :: p.1, p.2))

/-- One escape sequence, after the backslash. -/
def parseEsc : List Char → Option (List Char × List Char)
  | [] => none
  | e :: rest =>
    if e = 'u' then parseHex4 rest
    else
      match escDecode e with
      | some d => (parseStrBody rest).map (fun p => (d :: p.1, p.2))
      | none => none

/-- The four hex digits of a `\uXXXX` escape, after the `u`. -/
def parseHex4 : List Char → Option (List Char × List Char)
  | h1 :: h2 :: h3 :: h4 :: rest =>
    match hexVal h1, hexVal h2, hexVal h3, hexVal h4 with
    | some v1, some v2, some v3, some v4 =>
      let n := v1 * 4096 + v2 * 256 + v3 * 16 + v4
      if 55296 ≤ n ∧ n ≤ 56319 then parseLow n rest
      else if 56320 ≤ n ∧ n ≤ 57343 then none
      else (parseStrBody rest).map (fun p => (Char.ofNat n :: p.1, p.2))
    | _, _, _, _ => none
  | _ => none

/-- The low half of a surrogate pair: a second `\uXXXX` escape following a
high surrogate `n`. -/
def parseLow (n : Nat) : List Char → Option (List Char × List Char)
  | b :: u :: g1 :: g2 :: g3 :: g4 :: rest =>
    if b = '\\' ∧ u = 'u' then
      match hexVal g1, hexVal g2, hexVal g3, hexVal g4 with
      | some w1, some w2, some w3, some w4 =>
        let m := w1 * 4096 + w2 * 256 + w3 * 16 + w4
        if 56320 ≤ m ∧ m ≤ 57343 then
          (parseStrBody rest).map
            (fun p => (Char.ofNat (65536 + (n - 55296) * 1024 + (m - 56320)) :: p.1, p.2))
        else none
      | _, _, _, _ => none
    else none
  | _ => none
end

/-- Greedily parse a run of decimal digits. -/
def parseNat (cs : List Char) : Option (Nat × List Char) :=
  let ds := cs.takeWhile isDigitChar
  if ds.isEmpty then none else some (digitsVal ds, cs.dropWhile isDigitChar)

/-- The three JSON keyword literals, dispatched on their first character. -/
def parseKeyword (c : Char) (cs : List Char) : Option (Json × List Char) :=
  if c = 'n' then
    match cs with
    | 'u' :: 'l' :: 'l' :: rest => some (Json.null, rest)
    | _ => none
  else if c = 't' then
    match cs with
    | 'r' :: 'u' :: 'e' :: rest => some (Json.bool true, rest)
    | _ => none
  else if c = 'f' then
    match cs with
    | 'a' :: 'l' :: 's' :: 'e' :: rest => some (Json.bool false, rest)
    | _ => none
  else none

mutual
/-- Parse one JSON value (integer-number subset), fuel-bounded. -/
def parseV : Nat → List Char → Option (Json × List Char)
  | 0, _ => none
  | fuel + 1, cs =>
    match skipWs cs with
    | [] => none
    | c :: cs' =>
      if isDigitChar c then
        (parseNat (c :: cs')).map (fun p => (Json.num ((p.1 : Int)), p.2))
      else if c = '-' then
        (parseNat cs').map (fun p => (Json.num (-(p.1 : Int)), p.2))
      else if c = '"' then
        (parseStrBody cs').map (fun p => (Json.str (String.mk p.1), p.2))
      else if c = '[' then
        match skipWs cs' with
        | b :: bs =>
          if b = ']' then some (Json.arr [], bs)
          else (parseItems fuel cs').map (fun p => (Json.arr p.1, p.2))
        | [] => none
      else if c = Char.ofNat 123 then
        match skipWs cs' with
        | b :: bs =>
          if b = Char.ofNat 125 then some (Json.obj [], bs)
          else (parseFields fuel cs').map (fun p => (Json.obj p.1, p.2))
        | [] => none
      else parseKeyword c cs'

/-- Parse the elements of a non-empty array, up to and including `]`. -/
def parseItems : Nat → List Char → Option (List Json × List Char)
  | 0, _ => none
  | fuel + 1, cs =>
    match parseV fuel cs with
    | some (v, rest) =>
      match skipWs rest with
      | e :: rest2 =>
        if e = ',' then (parseItems fuel rest2).map (fun p => (v :: p.1, p.2))
        else if e = ']' then some ([v], rest2)
        else none
      | [] => none
    | none => none

/-- Parse the members of a non-empty object, up to and including the brace. -/
def parseFields : Nat → List Char → Option (List (String × Json) × List Char)
  | 0, _ => none
  | fuel + 1, cs =>
    match skipWs cs with
    | c :: cs' =>
      if c = '"' then
        match parseStrBody cs' with
        | some (k, rest) =>
          match skipWs rest with
          | d :: rest2 =>
            if d = ':' then
              match parseV fuel rest2 with
              | some (v, rest3) =>
                match skipWs rest3 with
                | e :: rest4 =>
                  if e = ',' then
                    (parseFields fuel rest4).map (fun p => ((String.mk k, v) :: p.1, p.2))
                  else if e = Char.ofNat 125 then some ([(String.mk k, v)], rest4)
                  else none
                | [] => none
              | none => none
            else none
          | [] => none
        | none => none
      else none
    | [] => none
end

/-- `json.loads` (integer-number subset): parse one complete value, trailing
whitespace allowed, anything else trailing is an error. -/
def loads (cs : List Char) : Option Json :=
  match parseV (cs.length + 1) cs with
  | some (v, rest) => if skipWs rest = [] then some v else none
  | none => none

/-! ### UTF-8 -/

def utf8EncodeChar (c : Char) : List Nat :=
  let n := c.toNat
  if n < 128 then [n]
  else if n < 2048 then [192 + n / 64, 128 + n % 64]
  else if n < 65536 then [224 + n / 4096, 128 + n / 64 % 64, 128 + n % 64]
  else [240 + n / 262144, 128 + n / 4096 % 64, 128 + n / 64 % 64, 128 + n % 64]

def utf8Encode (l : List Char) : List Nat := (l.map utf8EncodeChar).flatten

def contByte (b : Nat) : Bool := 128 ≤ b && b < 192

mutual
/-- A (lenient) UTF-8 decoder: the receiver's bytes-to-text step. -/
def utf8Decode : List Nat → Option (List Char)
  | [] => some []
  | b1 :: rest =>
    if b1 < 128 then (utf8Decode rest).map (fun cs => Char.ofNat b1 :: cs)
    else if b1 < 194 then none
    else if b1 < 224 then utf8Cont2 b1 rest
    else if b1 < 240 then utf8Cont3 b1 rest
    else if b1 < 245 then utf8Cont4 b1 rest
    else none

/-- Continuation byte of a two-byte sequence. -/
def utf8Cont2 (b1 : Nat) : List Nat → Option (List Char)
  | b2 :: rest2 =>
    if contByte b2 then
      (utf8Decode rest2).map (fun cs => Char.ofNat ((b1 - 192) * 64 + (b2 - 128)) :: cs)
    else none
  | [] => none

/-- Continuation bytes of a three-byte sequence. -/
def utf8Cont3 (b1 : Nat) : List Nat → Option (List Char)
  | b2 :: b3 :: rest2 =>
    if contByte b2 && contByte b3 then
      (utf8Decode rest2).map
        (fun cs => Char.ofNat ((b1 - 224) * 4096 + (b2 - 128) * 64 + (b3 - 128)) :: cs)
    else none
  | _ => none

/-- Continuation bytes of a four-byte sequence. -/
def utf8Cont4 (b1 : Nat) : List Nat → Option (List Char)
  | b2 :: b3 :: b4 :: rest2 =>
    if contByte b2 && contByte b3 && contByte b4 then
      (utf8Decode rest2).map (fun cs =>
        Char.ofNat ((b1 - 240) * 262144 + (b2 - 128) * 4096 + (b3 - 128) * 64 + (b4 - 128))
          :: cs)
    else none
  | _ => none
end

/-! ### base64 (standard alphabet, as `base64.b64encode`) -/

def b64Char (n : Nat) : Char :=
  if n < 26 then Char.ofNat (65 + n)
  else if n < 52 then Char.ofNat (71 + n)
  else if n < 62 then Char.ofNat (n - 4)
  else if n = 62 then '+'
  else '/'

def b64encode : List Nat → List Char
  | [] => []
  | [b1] => [b64Char (b1 / 4), b64Char (b1 % 4 * 16), '=', '=']
  | [b1, b2] => [b64Char (b1 / 4), b64Char (b1 % 4 * 16 + b2 / 16), b64Char (b2 % 16 * 4), '=']
  | b1 :: b2 :: b3 :: rest =>
    b64Char (b1 / 4) :: b64Char (b1 % 4 * 16 + b2 / 16) :: b64Char (b2 % 16 * 4 + b3 / 64) ::
      b64Char (b3 % 64) :: b64encode rest

def b64Val (c : Char) : Option Nat :=
  if 65 ≤ c.toNat ∧ c.toNat ≤ 90 then some (c.toNat - 65)
  else if 97 ≤ c.toNat ∧ c.toNat ≤ 122 then some (c.toNat - 71)
  else if 48 ≤ c.toNat ∧ c.toNat ≤ 57 then some (c.toNat + 4)
  else if c = '+' then some 62
  else if c = '/' then some 63
  else none

/-- base64 decode (the receiver's first decoding step). -/
def b64decode : List Char → Option (List Nat)
  | [] => some []
  | c1 :: c2 :: c3 :: c4 :: rest =>
    match b64Val c1, b64Val c2 with
    | some v1, some v2 =>
      if c3 = '=' then
        if c4 = '=' ∧ rest = [] ∧ v2 % 16 = 0 then some [v1 * 4 + v2 / 16] else none
      else
        match b64Val c3 with
        | some v3 =>
          if c4 = '=' then
            if rest = [] ∧ v3 % 4 = 0 then some [v1 * 4 + v2 / 16, v2 % 16 * 16 + v3 / 4]
            else none
          else
            match b64Val c4 with
            | some v4 =>
              (b64decode rest).map (fun bs =>
                (v1 * 4 + v2 / 16) :: (v2 % 16 * 16 + v3 / 4) :: (v3 % 4 * 64 + v4) :: bs)
            | none => none
        | none => none
    | _, _ => none
  | _ => none

/-! ### Character facts -/

theorem toNat_ofNat_valid {n : Nat} (h : n.isValidChar) : (Char.ofNat n).toNat = n := by
  rw [Char.ofNat, dif_pos h]
  simp [Char.ofNatAux, Char.toNat, UInt32.toNat]

theorem char_ne_of_toNat_ne {c d : Char} (h : c.toNat ≠ d.toNat) : c ≠ d :=
  fun he => h (he ▸ rfl)

theorem char_toNat_lt (c : Char) : c.toNat < 1114112 := by
  rcases c.valid with h | h
  · exact Nat.lt_trans h (by omega)
  · exact h.2

theorem char_not_surrogate (c : Char) : c.toNat < 55296 ∨ 57343 < c.toNat := by
  rcases c.valid with h | h
  · exact Or.inl h
  · exact Or.inr h.1

theorem digitChar_toNat {d : Nat} (h : d < 10) : (digitChar d).toNat = 48 + d :=
  toNat_ofNat_valid (Or.inl (by omega))

theorem isDigitChar_digitChar {d : Nat} (h : d < 10) : isDigitChar (digitChar d) = true := by
  simp [isDigitChar, digitChar_toNat h]; omega

theorem not_ws_of_digit {c : Char} (h : isDigitChar c = true) : isWsChar c = false := by
  simp only [isDigitChar, Bool.and_eq_true, decide_eq_true_eq] at h
  simp only [isWsChar, Bool.or_eq_false_iff, decide_eq_false_iff_not]
  exact ⟨⟨⟨char_ne_of_toNat_ne (show c.toNat ≠ 32 by omega),
    char_ne_of_toNat_ne (show c.toNat ≠ 9 by omega)⟩,
    char_ne_of_toNat_ne (show c.toNat ≠ 10 by omega)⟩,
    char_ne_of_toNat_ne (show c.toNat ≠ 13 by omega)⟩

/-! ### `takeWhile` / `dropWhile` -/

theorem takeWhile_append_all {p : Char → Bool} {a b : List Char} (h : ∀ c ∈ a, p c = true) :
    (a ++ b).takeWhile p = a ++ b.takeWhile p := by
  induction a with
  | nil => rfl
  | cons x t ih =>
    simp only [List.cons_append, List.takeWhile_cons, h x (by simp)]
    simp [ih fun c hc => h c (by simp [hc])]

theorem dropWhile_append_all {p : Char → Bool} {a b : List Char} (h : ∀ c ∈ a, p c = true) :
    (a ++ b).dropWhile p = b.dropWhile p := by
  induction a with
  | nil => rfl
  | cons x t ih =>
    simp only [List.cons_append, List.dropWhile_cons, h x (by simp)]
    exact ih fun c hc => h c (by simp [hc])

/-! ### Decimal digits: rendering and parsing agree -/

theorem natCharsF_congr (n : Nat) :
    ∀ f g acc, n < f → n < g → natCharsF f n acc = natCharsF g n acc := by
  induction n using Nat.strong_induction_on with
  | _ n ih =>
    intro f g acc hf hg
    match f, g with
    | f + 1, g + 1 =>
      simp only [natCharsF]
      by_cases h : n < 10
      · simp [h]
      · simp only [if_neg h]
        have hd : n / 10 < n := Nat.div_lt_self (by omega) (by omega)
        exact ih (n / 10) hd f g _ (by omega) (by omega)

theorem natCharsF_acc (n : Nat) :
    ∀ f acc, n < f → natCharsF f n acc = natCharsF f n [] ++ acc := by
  induction n using Nat.strong_induction_on with
  | _ n ih =>
    intro f acc hf
    cases f with
    | zero => omega
    | succ f =>
      simp only [natCharsF]
      by_cases h : n < 10
      · simp [h]
      · simp only [if_neg h]
        have hdn : n / 10 < n := Nat.div_lt_self (by omega) (by omega)
        have hn : n / 10 < f := by omega
        rw [ih (n / 10) hdn f _ hn, ih (n / 10) hdn f [digitChar (n % 10)] hn,
          List.append_assoc]
        rfl

theorem natChars_small {n : Nat} (h : n < 10) : natChars n = [digitChar n] := by
  simp [natChars, natCharsF, h]

theorem natChars_step {n : Nat} (h : 10 ≤ n) :
    natChars n = natChars (n / 10) ++ [digitChar (n % 10)] := by
  have hlt : n / 10 < n := Nat.div_lt_self (by omega) (by omega)
  have h1 : natChars n = natCharsF n (n / 10) [digitChar (n % 10)] := by
    rw [natChars]
    simp only [natCharsF, if_neg (show ¬n < 10 by omega)]
  rw [h1, natCharsF_acc (n / 10) n [digitChar (n % 10)] (by omega),
    natCharsF_congr (n / 10) n (n / 10 + 1) [] (by omega) (by omega)]
  rfl

theorem natChars_digits (n : Nat) : ∀ c ∈ natChars n, isDigitChar c = true := by
  induction n using Nat.strong_induction_on with
  | _ n ih =>
    by_cases h : n < 10
    · rw [natChars_small h]
      intro c hc
      rw [List.mem_singleton] at hc
      exact hc ▸ isDigitChar_digitChar h
    · rw [natChars_step (by omega)]
      intro c hc
      rcases List.mem_append.1 hc with hc | hc
      · exact ih (n / 10) (Nat.div_lt_self (by omega) (by omega)) c hc
      · rw [List.mem_singleton] at hc
        exact hc ▸ isDigitChar_digitChar (Nat.mod_lt _ (by omega))

theorem natChars_ne_nil (n : Nat) : natChars n ≠ [] := by
  by_cases h : n < 10
  · rw [natChars_small h]; simp
  · rw [natChars_step (by omega)]; simp

theorem digitsVal_natChars (n : Nat) : digitsVal (natChars n) = n := by
  induction n using Nat.strong_induction_on with
  | _ n ih =>
    by_cases h : n < 10
    · rw [natChars_small h]
      simp [digitsVal, digitChar_toNat h]
    · rw [natChars_step (by omega)]
      have := ih (n / 10) (Nat.div_lt_self (by omega) (by omega))
      simp only [digitsVal, List.foldl_append] at *
      rw [this]
      simp [digitChar_toNat (Nat.mod_lt n (show 0 < 10 by omega))]
      omega

/-- The head of `rest` cannot extend a number token. -/
def digitFree : List Char → Prop
  | [] => True
  | c :: _ => isDigitChar c = false

theorem parseNat_natChars (n : Nat) (rest : List Char) (hr : digitFree rest) :
    parseNat (natChars n ++ rest) = some (n, rest) := by
  have htail : rest.takeWhile isDigitChar = [] := by
    cases rest with
    | nil => rfl
    | cons c t =>
      have hc : isDigitChar c = false := hr
      simp [List.takeWhile_cons, hc]
  have hdrop : rest.dropWhile isDigitChar = rest := by
    cases rest with
    | nil => rfl
    | cons c t =>
      have hc : isDigitChar c = false := hr
      simp [List.dropWhile_cons, hc]
  rw [parseNat]
  simp only [takeWhile_append_all (natChars_digits n), dropWhile_append_all (natChars_digits n),
    htail, hdrop, List.append_nil]
  simp [List.isEmpty_eq_true, natChars_ne_nil n, digitsVal_natChars n]

/-! ### String escaping round trip -/

theorem hexVal_hexDigitChar {d : Nat} (h : d < 16) : hexVal (hexDigitChar d) = some d := by
  have hall : ∀ e < 16, hexVal (hexDigitChar e) = some e := by decide
  exact hall d h

theorem escapeChars_cons (c : Char) (t : List Char) :
    escapeChars (c :: t) = escapeChar c ++ escapeChars t := by
  simp [escapeChars]

theorem parseStrBody_cons (c : Char) (X : List Char) :
    parseStrBody (c :: X) =
      if c = '\\' then parseEsc X
      else if c = '"' then some ([], X)
      else if c.toNat < 32 then none
      else (parseStrBody X).map (fun p => (c :: p.1, p.2)) := by
  rw [parseStrBody]

theorem parseEsc_cons (e : Char) (X : List Char) :
    parseEsc (e :: X) =
      if e = 'u' then parseHex4 X
      else
        match escDecode e with
        | some d => (parseStrBody X).map (fun p => (d :: p.1, p.2))
        | none => none := by
  rw [parseEsc]

theorem psb_esc {e d : Char} (he : escDecode e = some d) (hu : ¬e = 'u') (X : List Char) :
    parseStrBody ('\\' :: e :: X) = (parseStrBody X).map (fun p => (d :: p.1, p.2)) := by
  rw [parseStrBody_cons, if_pos rfl, parseEsc_cons, if_neg hu]
  simp only [he]

theorem parseHex4_vals {h1 h2 h3 h4 : Char} {v1 v2 v3 v4 : Nat}
    (e1 : hexVal h1 = some v1) (e2 : hexVal h2 = some v2) (e3 : hexVal h3 = some v3)
    (e4 : hexVal h4 = some v4) (X : List Char) :
    parseHex4 (h1 :: h2 :: h3 :: h4 :: X) =
      (if 55296 ≤ v1 * 4096 + v2 * 256 + v3 * 16 + v4 ∧
          v1 * 4096 + v2 * 256 + v3 * 16 + v4 ≤ 56319 then
        parseLow (v1 * 4096 + v2 * 256 + v3 * 16 + v4) X
      else if 56320 ≤ v1 * 4096 + v2 * 256 + v3 * 16 + v4 ∧
          v1 * 4096 + v2 * 256 + v3 * 16 + v4 ≤ 57343 then none
      else (parseStrBody X).map
        (fun p => (Char.ofNat (v1 * 4096 + v2 * 256 + v3 * 16 + v4) :: p.1, p.2))) := by
  rw [parseHex4]
  simp only [e1, e2, e3, e4]

theorem parseLow_vals {g1 g2 g3 g4 : Char} {w1 w2 w3 w4 : Nat} (n : Nat)
    (e1 : hexVal g1 = some w1) (e2 : hexVal g2 = some w2) (e3 : hexVal g3 = some w3)
    (e4 : hexVal g4 = some w4) (X : List Char) :
    parseLow n ('\\' :: 'u' :: g1 :: g2 :: g3 :: g4 :: X) =
      (if 56320 ≤ w1 * 4096 + w2 * 256 + w3 * 16 + w4 ∧
          w1 * 4096 + w2 * 256 + w3 * 16 + w4 ≤ 57343 then
        (parseStrBody X).map (fun p =>
          (Char.ofNat (65536 + (n - 55296) * 1024 +
            (w1 * 4096 + w2 * 256 + w3 * 16 + w4 - 56320)) :: p.1, p.2))
      else none) := by
  rw [parseLow, if_pos ⟨rfl, rfl⟩]
  simp only [e1, e2, e3, e4]

theorem parseStrBody_escape (l : List Char) :
    ∀ rest, parseStrBody (escapeChars l ++ '"' :: rest) = some (l, rest) := by
  induction l with
  | nil =>
    intro rest
    show parseStrBody ('"' :: rest) = some ([], rest)
    rw [parseStrBody_cons, if_neg (by decide), if_pos rfl]
  | cons c t ih =>
    intro rest
    rw [escapeChars_cons, List.append_assoc]
    by_cases h1 : c = '"'
    · subst h1
      rw [show escapeChar '"' = ['\\', '"'] from rfl]
      simp only [List.cons_append, List.nil_append]
      rw [psb_esc (show escDecode '"' = some '"' from rfl) (by decide), ih rest]
      rfl
    by_cases h2 : c = '\\'
    · subst h2
      rw [show escapeChar '\\' = ['\\', '\\'] from rfl]
      simp only [List.cons_append, List.nil_append]
      rw [psb_esc (show escDecode '\\' = some '\\' from rfl) (by decide), ih rest]
      rfl
    by_cases h3 : c = '\n'
    · subst h3
      rw [show escapeChar '\n' = ['\\', 'n'] from rfl]
      simp only [List.cons_append, List.nil_append]
      rw [psb_esc (show escDecode 'n' = some '\n' from rfl) (by decide), ih rest]
      rfl
    by_cases h4 : c = '\r'
    · subst h4
      rw [show escapeChar '\r' = ['\\', 'r'] from rfl]
      simp only [List.cons_append, List.nil_append]
      rw [psb_esc (show escDecode 'r' = some '\r' from rfl) (by decide), ih rest]
      rfl
    by_cases h5 : c = '\t'
    · subst h5
      rw [show escapeChar '\t' = ['\\', 't'] from rfl]
      simp only [List.cons_append, List.nil_append]
      rw [psb_esc (show escDecode 't' = some '\t' from rfl) (by decide), ih rest]
      rfl
    by_cases h6 : c.toNat = 8
    · have hc : Char.ofNat 8 = c := by rw [← h6, Char.ofNat_toNat]
      rw [escapeChar, if_neg h1, if_neg h2, if_neg h3, if_neg h4, if_neg h5, if_pos h6]
      simp only [List.cons_append, List.nil_append]
      rw [psb_esc (show escDecode 'b' = some (Char.ofNat 8) from rfl) (by decide), ih rest, hc]
      rfl
    by_cases h7 : c.toNat = 12
    · have hc : Char.ofNat 12 = c := by rw [← h7, Char.ofNat_toNat]
      rw [escapeChar, if_neg h1, if_neg h2, if_neg h3, if_neg h4, if_neg h5, if_neg h6,
        if_pos h7]
      simp only [List.cons_append, List.nil_append]
      rw [psb_esc (show escDecode 'f' = some (Char.ofNat 12) from rfl) (by decide), ih rest, hc]
      rfl
    by_cases h8 : 32 ≤ c.toNat ∧ c.toNat ≤ 126
    · rw [escapeChar, if_neg h1, if_neg h2, if_neg h3, if_neg h4, if_neg h5, if_neg h6,
        if_neg h7, if_pos h8]
      simp only [List.cons_append, List.nil_append]
      rw [parseStrBody_cons, if_neg h2, if_neg h1, if_neg (by omega), ih rest]
      rfl
    by_cases h9 : c.toNat < 65536
    · rw [escapeChar, if_neg h1, if_neg h2, if_neg h3, if_neg h4, if_neg h5, if_neg h6,
        if_neg h7, if_neg h8, if_pos h9, uEscape]
      simp only [List.cons_append, List.nil_append]
      rw [parseStrBody_cons, if_pos rfl, parseEsc_cons, if_pos rfl,
        parseHex4_vals (hexVal_hexDigitChar (Nat.mod_lt _ (by omega)))
          (hexVal_hexDigitChar (Nat.mod_lt _ (by omega)))
          (hexVal_hexDigitChar (Nat.mod_lt _ (by omega)))
          (hexVal_hexDigitChar (Nat.mod_lt _ (by omega)))]
      have hn : c.toNat / 4096 % 16 * 4096 + c.toNat / 256 % 16 * 256 +
          c.toNat / 16 % 16 * 16 + c.toNat % 16 = c.toNat := by omega
      rw [hn]
      rcases char_not_surrogate c with hs | hs
      · rw [if_neg (by omega), if_neg (by omega), ih rest, Char.ofNat_toNat]
        rfl
      · rw [if_neg (by omega), if_neg (by omega), ih rest, Char.ofNat_toNat]
        rfl
    · have hcl : c.toNat < 1114112 := char_toNat_lt c
      have hhib : (c.toNat - 65536) / 1024 < 1024 := by omega
      rw [escapeChar, if_neg h1, if_neg h2, if_neg h3, if_neg h4, if_neg h5, if_neg h6,
        if_neg h7, if_neg h8, if_neg h9, uEscape, uEscape]
      simp only [List.cons_append, List.nil_append, List.append_assoc]
      rw [parseStrBody_cons, if_pos rfl, parseEsc_cons, if_pos rfl,
        parseHex4_vals (hexVal_hexDigitChar (Nat.mod_lt _ (by omega)))
          (hexVal_hexDigitChar (Nat.mod_lt _ (by omega)))
          (hexVal_hexDigitChar (Nat.mod_lt _ (by omega)))
          (hexVal_hexDigitChar (Nat.mod_lt _ (by omega)))]
      have hhi : (55296 + (c.toNat - 65536) / 1024) / 4096 % 16 * 4096 +
          (55296 + (c.toNat - 65536) / 1024) / 256 % 16 * 256 +
          (55296 + (c.toNat - 65536) / 1024) / 16 % 16 * 16 +
          (55296 + (c.toNat - 65536) / 1024) % 16
          = 55296 + (c.toNat - 65536) / 1024 := by omega
      rw [hhi, if_pos (by omega)]
      rw [parseLow_vals _ (hexVal_hexDigitChar (Nat.mod_lt _ (by omega)))
        (hexVal_hexDigitChar (Nat.mod_lt _ (by omega)))
        (hexVal_hexDigitChar (Nat.mod_lt _ (by omega)))
        (hexVal_hexDigitChar (Nat.mod_lt _ (by omega)))]
      have hlo : (56320 + (c.toNat - 65536) % 1024) / 4096 % 16 * 4096 +
          (56320 + (c.toNat - 65536) % 1024) / 256 % 16 * 256 +
          (56320 + (c.toNat - 65536) % 1024) / 16 % 16 * 16 +
          (56320 + (c.toNat - 65536) % 1024) % 16
          = 56320 + (c.toNat - 65536) % 1024 := by omega
      rw [hlo, if_pos (by omega)]
      have hrec : 65536 + (55296 + (c.toNat - 65536) / 1024 - 55296) * 1024 +
          (56320 + (c.toNat - 65536) % 1024 - 56320) = c.toNat := by omega
      rw [hrec, ih rest, Char.ofNat_toNat]
      rfl

/-! ### Parser infrastructure: fuel cost, unfolding and whitespace lemmas -/

mutual
/-- Fuel needed by `parseV` to parse the serialization of `v`. -/
def cost : Json → Nat
  | .null => 1
  | .bool _ => 1
  | .num _ => 1
  | .str _ => 1
  | .arr xs => 1 + costItems xs
  | .obj fs => 1 + costFields fs

def costItems : List Json → Nat
  | [] => 0
  | x :: t => 1 + cost x + costItems t

def costFields : List (String × Json) → Nat
  | [] => 0
  | f :: t => 1 + cost f.2 + costFields t
end

theorem cost_pos (v : Json) : 1 ≤ cost v := by
  cases v <;> simp [cost]

theorem skipWs_cons_not {c : Char} (hc : isWsChar c = false) (X : List Char) :
    skipWs (c :: X) = c :: X := by
  simp [skipWs, List.dropWhile_cons, hc]

theorem skipWs_append_ws {a : List Char} (ha : ∀ c ∈ a, isWsChar c = true) (cs : List Char) :
    skipWs (a ++ cs) = skipWs cs :=
  dropWhile_append_all ha

theorem dumpChars_arr (isep ksep : List Char) (xs : List Json) :
    dumpChars isep ksep (.arr xs) = '[' :: (dumpItems isep ksep xs ++ [']']) := by
  rw [dumpChars]

theorem dumpChars_obj (isep ksep : List Char) (fs : List (String × Json)) :
    dumpChars isep ksep (.obj fs) = Char.ofNat 123 :: (dumpFields isep ksep fs ++ [Char.ofNat 125]) := by
  rw [dumpChars]

theorem dumpItems_pair (isep ksep : List Char) (x y : Json) (t : List Json) :
    dumpItems isep ksep (x :: y :: t)
      = dumpChars isep ksep x ++ isep ++ dumpItems isep ksep (y :: t) := by
  rw [dumpItems]

theorem dumpFields_pair (isep ksep : List Char) (f g : String × Json)
    (t : List (String × Json)) :
    dumpFields isep ksep (f :: g :: t)
      = quoteChars f.1 ++ ksep ++ dumpChars isep ksep f.2 ++ isep
        ++ dumpFields isep ksep (g :: t) := by
  obtain ⟨k, v⟩ := f
  rw [dumpFields]

theorem dumpFields_single (isep ksep : List Char) (f : String × Json) :
    dumpFields isep ksep [f] = quoteChars f.1 ++ ksep ++ dumpChars isep ksep f.2 := by
  obtain ⟨k, v⟩ := f
  rw [dumpFields]

/-- The serialization of any value starts with a character that is neither
whitespace nor a closing bracket, brace, or comma. -/
theorem dumpChars_head (isep ksep : List Char) (v : Json) :
    ∃ c t, dumpChars isep ksep v = c :: t ∧ isWsChar c = false ∧
      ¬c = ']' ∧ ¬c = Char.ofNat 125 := by
  cases v with
  | null => exact ⟨'n', ['u', 'l', 'l'], rfl, by decide, by decide, by decide⟩
  | bool b =>
    cases b with
    | true => exact ⟨'t', ['r', 'u', 'e'], rfl, by decide, by decide, by decide⟩
    | false => exact ⟨'f', ['a', 'l', 's', 'e'], rfl, by decide, by decide, by decide⟩
  | num n =>
    show ∃ c t, intChars n = c :: t ∧ _
    rw [intChars]
    by_cases hn : n < 0
    · rw [if_pos hn]
      exact ⟨'-', _, rfl, by decide, by decide, by decide⟩
    · rw [if_neg hn]
      obtain ⟨d, t, hdt⟩ : ∃ d t, natChars n.toNat = d :: t := by
        cases h : natChars n.toNat with
        | nil => exact absurd h (natChars_ne_nil _)
        | cons d t => exact ⟨d, t, rfl⟩
      have hd : isDigitChar d = true := natChars_digits n.toNat d (by rw [hdt]; simp)
      have hdn : 48 ≤ d.toNat ∧ d.toNat ≤ 57 := by
        simpa [isDigitChar] using hd
      exact ⟨d, t, hdt, not_ws_of_digit hd,
        char_ne_of_toNat_ne (show d.toNat ≠ 93 by omega),
        char_ne_of_toNat_ne (show d.toNat ≠ 125 by omega)⟩
  | str s => exact ⟨'"', _, rfl, by decide, by decide, by decide⟩
  | arr xs => exact ⟨'[', _, dumpChars_arr isep ksep xs, by decide, by decide, by decide⟩
  | obj fs => exact ⟨Char.ofNat 123, _, dumpChars_obj isep ksep fs, by decide, by decide,
      by decide⟩

theorem dumpItems_head_eq (isep ksep : List Char) (x : Json) (t : List Json) :
    ∃ z, dumpItems isep ksep (x :: t) = dumpChars isep ksep x ++ z := by
  cases t with
  | nil => exact ⟨[], by rw [dumpItems, List.append_nil]⟩
  | cons y t' => exact ⟨isep ++ dumpItems isep ksep (y :: t'), by
      rw [dumpItems_pair, List.append_assoc]⟩

/-- `parseV` unfolded one step on a non-whitespace head character. -/
theorem parseV_succ_cons {c : Char} (hc : isWsChar c = false) (fuel : Nat) (X : List Char) :
    parseV (fuel + 1) (c :: X) =
      if isDigitChar c then
        (parseNat (c :: X)).map (fun p => (Json.num ((p.1 : Int)), p.2))
      else if c = '-' then
        (parseNat X).map (fun p => (Json.num (-(p.1 : Int)), p.2))
      else if c = '"' then
        (parseStrBody X).map (fun p => (Json.str (String.mk p.1), p.2))
      else if c = '[' then
        match skipWs X with
        | b :: bs =>
          if b = ']' then some (Json.arr [], bs)
          else (parseItems fuel X).map (fun p => (Json.arr p.1, p.2))
        | [] => none
      else if c = Char.ofNat 123 then
        match skipWs X with
        | b :: bs =>
          if b = Char.ofNat 125 then some (Json.obj [], bs)
          else (parseFields fuel X).map (fun p => (Json.obj p.1, p.2))
        | [] => none
      else parseKeyword c X := by
  rw [parseV, skipWs_cons_not hc]

theorem parseV_ws_append {a : List Char} (ha : ∀ c ∈ a, isWsChar c = true) (fuel : Nat)
    (cs : List Char) : parseV fuel (a ++ cs) = parseV fuel cs := by
  cases fuel with
  | zero => rfl
  | succ f => rw [parseV, parseV, skipWs_append_ws ha]

theorem parseItems_ws_append {a : List Char} (ha : ∀ c ∈ a, isWsChar c = true) (fuel : Nat)
    (cs : List Char) : parseItems fuel (a ++ cs) = parseItems fuel cs := by
  cases fuel with
  | zero => rfl
  | succ f => rw [parseItems, parseItems, parseV_ws_append ha]

theorem parseFields_ws_append {a : List Char} (ha : ∀ c ∈ a, isWsChar c = true) (fuel : Nat)
    (cs : List Char) : parseFields fuel (a ++ cs) = parseFields fuel cs := by
  cases fuel with
  | zero => rfl
  | succ f => rw [parseFields, parseFields, skipWs_append_ws ha]

/-! ### Parser round trip: `parseV` inverts `dumpChars` -/

theorem digitFree_nil : digitFree ([] : List Char) := trivial

theorem digitFree_bracket (rest : List Char) : digitFree (']' :: rest) := rfl

theorem digitFree_brace (rest : List Char) : digitFree (Char.ofNat 125 :: rest) := rfl

theorem digitFree_comma (rest : List Char) : digitFree (',' :: rest) := rfl

theorem arrBranch {X : List Char} {c0 : Char} {Z : List Char} (h : skipWs X = c0 :: Z)
    (hne : ¬c0 = ']') (f : Nat) :
    (match skipWs X with
      | b :: bs =>
        if b = ']' then some (Json.arr [], bs)
        else (parseItems f X).map (fun p => (Json.arr p.1, p.2))
      | [] => none)
      = (parseItems f X).map (fun p => (Json.arr p.1, p.2)) := by
  rw [h]
  show (if c0 = ']' then some (Json.arr [], Z)
    else (parseItems f X).map (fun p => (Json.arr p.1, p.2)))
    = (parseItems f X).map (fun p => (Json.arr p.1, p.2))
  rw [if_neg hne]

theorem objBranch {X : List Char} {c0 : Char} {Z : List Char} (h : skipWs X = c0 :: Z)
    (hne : ¬c0 = Char.ofNat 125) (f : Nat) :
    (match skipWs X with
      | b :: bs =>
        if b = Char.ofNat 125 then some (Json.obj [], bs)
        else (parseFields f X).map (fun p => (Json.obj p.1, p.2))
      | [] => none)
      = (parseFields f X).map (fun p => (Json.obj p.1, p.2)) := by
  rw [h]
  show (if c0 = Char.ofNat 125 then some (Json.obj [], Z)
    else (parseFields f X).map (fun p => (Json.obj p.1, p.2)))
    = (parseFields f X).map (fun p => (Json.obj p.1, p.2))
  rw [if_neg hne]

/-- One object member: `parseFields` on a quoted key unfolds to the
post-key continuation. -/
theorem parseFields_key (f : Nat) {cs kl T : List Char}
    (hcs : cs = '"' :: (escapeChars kl ++ '"' :: T)) :
    parseFields (f + 1) cs =
      (match skipWs T with
      | d :: rest2 =>
        if d = ':' then
          match parseV f rest2 with
          | some (v, rest3) =>
            match skipWs rest3 with
            | e :: rest4 =>
              if e = ',' then
                (parseFields f rest4).map (fun p => ((String.mk kl, v) :: p.1, p.2))
              else if e = Char.ofNat 125 then some ([(String.mk kl, v)], rest4)
              else none
            | [] => none
          | none => none
        else none
      | [] => none) := by
  subst hcs
  rw [parseFields, skipWs_cons_not (by decide)]
  simp only [parseStrBody_escape, if_true]

theorem dumpFields_head_eq (isep ksep : List Char) (g : String × Json)
    (t : List (String × Json)) :
    ∃ z, dumpFields isep ksep (g :: t) = '"' :: z := by
  cases t with
  | nil =>
    rw [dumpFields_single, quoteChars]
    simp only [List.cons_append, List.append_assoc]
    exact ⟨_, rfl⟩
  | cons g2 t' =>
    rw [dumpFields_pair, quoteChars]
    simp only [List.cons_append, List.append_assoc]
    exact ⟨_, rfl⟩

mutual

theorem parseV_dumps (iw kw : List Char) (hiw : ∀ c ∈ iw, isWsChar c = true)
    (hkw : ∀ c ∈ kw, isWsChar c = true) (v : Json) (fuel : Nat) (rest : List Char)
    (hf : cost v ≤ fuel) (hr : digitFree rest) :
    parseV fuel (dumpChars (',' :: iw) (':' :: kw) v ++ rest) = some (v, rest) := by
  obtain ⟨f, rfl⟩ : ∃ f, fuel = f + 1 := ⟨fuel - 1, by have := cost_pos v; omega⟩
  cases v with
  | null =>
    show parseV (f + 1) ('n' :: 'u' :: 'l' :: 'l' :: rest) = _
    rw [parseV_succ_cons (by decide), if_neg (by decide), if_neg (by decide),
      if_neg (by decide), if_neg (by decide), if_neg (by decide)]
    rfl
  | bool b =>
    cases b with
    | true =>
      show parseV (f + 1) ('t' :: 'r' :: 'u' :: 'e' :: rest) = _
      rw [parseV_succ_cons (by decide), if_neg (by decide), if_neg (by decide),
        if_neg (by decide), if_neg (by decide), if_neg (by decide)]
      rfl
    | false =>
      show parseV (f + 1) ('f' :: 'a' :: 'l' :: 's' :: 'e' :: rest) = _
      rw [parseV_succ_cons (by decide), if_neg (by decide), if_neg (by decide),
        if_neg (by decide), if_neg (by decide), if_neg (by decide)]
      rfl
  | num n =>
    show parseV (f + 1) (intChars n ++ rest) = _
    by_cases hn : n < 0
    · rw [intChars, if_pos hn]
      simp only [List.cons_append]
      rw [parseV_succ_cons (by decide), if_neg (by decide), if_pos rfl,
        parseNat_natChars _ _ hr]
      show some (Json.num (-((n.natAbs : Int))), rest) = some (Json.num n, rest)
      have h2 : -((n.natAbs : Int)) = n := by omega
      rw [h2]
    · rw [intChars, if_neg hn]
      obtain ⟨d, t, hdt⟩ : ∃ d t, natChars n.toNat = d :: t := by
        cases h : natChars n.toNat with
        | nil => exact absurd h (natChars_ne_nil _)
        | cons d t => exact ⟨d, t, rfl⟩
      have hd : isDigitChar d = true := natChars_digits n.toNat d (by rw [hdt]; simp)
      rw [hdt]
      simp only [List.cons_append]
      rw [parseV_succ_cons (not_ws_of_digit hd), if_pos hd, ← List.cons_append, ← hdt,
        parseNat_natChars _ _ hr]
      show some (Json.num ((n.toNat : Int)), rest) = some (Json.num n, rest)
      have h2 : ((n.toNat : Int)) = n := by omega
      rw [h2]
  | str s =>
    show parseV (f + 1) ('"' :: ((escapeChars s.data ++ ['"']) ++ rest)) = _
    rw [parseV_succ_cons (by decide), if_neg (by decide), if_neg (by decide), if_pos rfl,
      List.append_assoc, List.singleton_append, parseStrBody_escape]
    rfl
  | arr xs =>
    rw [dumpChars_arr]
    simp only [List.cons_append]
    rw [List.append_assoc, List.singleton_append]
    rw [parseV_succ_cons (by decide), if_neg (by decide), if_neg (by decide),
      if_neg (by decide), if_pos rfl]
    cases xs with
    | nil =>
      show (match skipWs (']' :: rest) with
        | b :: bs =>
          if b = ']' then some (Json.arr [], bs)
          else (parseItems f (']' :: rest)).map (fun p => (Json.arr p.1, p.2))
        | [] => none) = some (Json.arr [], rest)
      rw [skipWs_cons_not (by decide)]
      rfl
    | cons x t =>
      obtain ⟨z, hz⟩ := dumpItems_head_eq (',' :: iw) (':' :: kw) x t
      obtain ⟨c0, t0, hc0, hws0, hne0, hne0b⟩ := dumpChars_head (',' :: iw) (':' :: kw) x
      have hskip : skipWs (dumpItems (',' :: iw) (':' :: kw) (x :: t) ++ ']' :: rest)
          = c0 :: (t0 ++ (z ++ ']' :: rest)) := by
        rw [hz, hc0]
        simp only [List.cons_append, List.append_assoc]
        exact skipWs_cons_not hws0 _
      rw [arrBranch hskip hne0 f,
        parseItems_dumps iw kw hiw hkw x t f rest (by simp only [cost] at hf; omega)]
      rfl
  | obj fs =>
    rw [dumpChars_obj]
    simp only [List.cons_append]
    rw [List.append_assoc, List.singleton_append]
    rw [parseV_succ_cons (by decide), if_neg (by decide), if_neg (by decide),
      if_neg (by decide), if_neg (by decide), if_pos rfl]
    cases fs with
    | nil =>
      show (match skipWs (Char.ofNat 125 :: rest) with
        | b :: bs =>
          if b = Char.ofNat 125 then some (Json.obj [], bs)
          else (parseFields f (Char.ofNat 125 :: rest)).map (fun p => (Json.obj p.1, p.2))
        | [] => none) = some (Json.obj [], rest)
      rw [skipWs_cons_not (by decide)]
      rfl
    | cons g t =>
      obtain ⟨z, hz⟩ := dumpFields_head_eq (',' :: iw) (':' :: kw) g t
      have hskip : skipWs (dumpFields (',' :: iw) (':' :: kw) (g :: t)
            ++ Char.ofNat 125 :: rest)
          = '"' :: (z ++ Char.ofNat 125 :: rest) := by
        rw [hz]
        simp only [List.cons_append]
        exact skipWs_cons_not (by decide) _
      rw [objBranch hskip (by decide) f,
        parseFields_dumps iw kw hiw hkw g t f rest (by simp only [cost] at hf; omega)]
      rfl
termination_by sizeOf v
decreasing_by all_goals (simp_wf; try subst_vars; try simp; try omega)

theorem parseItems_dumps (iw kw : List Char) (hiw : ∀ c ∈ iw, isWsChar c = true)
    (hkw : ∀ c ∈ kw, isWsChar c = true) (x : Json) (xs : List Json) (fuel : Nat)
    (rest : List Char) (hf : costItems (x :: xs) ≤ fuel) :
    parseItems fuel (dumpItems (',' :: iw) (':' :: kw) (x :: xs) ++ ']' :: rest)
      = some (x :: xs, rest) := by
  obtain ⟨f, rfl⟩ : ∃ f, fuel = f + 1 := ⟨fuel - 1, by
    have := cost_pos x; simp only [costItems] at hf; omega⟩
  cases xs with
  | nil =>
    rw [show dumpItems (',' :: iw) (':' :: kw) [x] = dumpChars (',' :: iw) (':' :: kw) x
        from by rw [dumpItems],
      parseItems,
      parseV_dumps iw kw hiw hkw x f (']' :: rest)
        (by simp only [costItems] at hf; omega) (digitFree_bracket rest)]
    rfl
  | cons y t =>
    rw [dumpItems_pair]
    simp only [List.cons_append, List.append_assoc]
    rw [parseItems,
      parseV_dumps iw kw hiw hkw x f
        (',' :: (iw ++ (dumpItems (',' :: iw) (':' :: kw) (y :: t) ++ ']' :: rest)))
        (by simp only [costItems] at hf; have := cost_pos x; omega) (digitFree_comma _)]
    show (parseItems f (iw ++ (dumpItems (',' :: iw) (':' :: kw) (y :: t) ++ ']' :: rest))).map
        (fun p => (x :: p.1, p.2)) = some (x :: y :: t, rest)
    rw [parseItems_ws_append hiw,
      parseItems_dumps iw kw hiw hkw y t f rest
        (by simp only [costItems] at hf ⊢; have := cost_pos x; omega)]
    rfl
termination_by sizeOf (x :: xs)
decreasing_by all_goals (simp_wf; try subst_vars; try simp; try omega)

theorem parseFields_dumps (iw kw : List Char) (hiw : ∀ c ∈ iw, isWsChar c = true)
    (hkw : ∀ c ∈ kw, isWsChar c = true) (g : String × Json) (fs : List (String × Json))
    (fuel : Nat) (rest : List Char) (hf : costFields (g :: fs) ≤ fuel) :
    parseFields fuel (dumpFields (',' :: iw) (':' :: kw) (g :: fs) ++ Char.ofNat 125 :: rest)
      = some (g :: fs, rest) := by
  obtain ⟨f, rfl⟩ : ∃ f, fuel = f + 1 := ⟨fuel - 1, by
    have := cost_pos g.2; simp only [costFields] at hf; omega⟩
  cases fs with
  | nil =>
    have hform : dumpFields (',' :: iw) (':' :: kw) [g] ++ Char.ofNat 125 :: rest
        = '"' :: (escapeChars g.1.data ++ '"' ::
            (':' :: (kw ++ (dumpChars (',' :: iw) (':' :: kw) g.2
              ++ Char.ofNat 125 :: rest)))) := by
      rw [dumpFields_single, quoteChars]
      simp only [List.cons_append, List.append_assoc, List.singleton_append, List.nil_append]
    rw [hform, parseFields_key f rfl, skipWs_cons_not (by decide)]
    show (match parseV f (kw ++ (dumpChars (',' :: iw) (':' :: kw) g.2
          ++ Char.ofNat 125 :: rest)) with
      | some (v', rest3) =>
        match skipWs rest3 with
        | e :: rest4 =>
          if e = ',' then
            (parseFields f rest4).map (fun p => ((String.mk g.1.data, v') :: p.1, p.2))
          else if e = Char.ofNat 125 then some ([(String.mk g.1.data, v')], rest4)
          else none
        | [] => none
      | none => none) = some ([g], rest)
    rw [parseV_ws_append hkw,
      parseV_dumps iw kw hiw hkw g.2 f (Char.ofNat 125 :: rest)
        (by simp only [costFields] at hf; omega) (digitFree_brace rest)]
    rfl
  | cons g2 t =>
    have hform : dumpFields (',' :: iw) (':' :: kw) (g :: g2 :: t)
          ++ Char.ofNat 125 :: rest
        = '"' :: (escapeChars g.1.data ++ '"' ::
            (':' :: (kw ++ (dumpChars (',' :: iw) (':' :: kw) g.2
              ++ (',' :: (iw ++ (dumpFields (',' :: iw) (':' :: kw) (g2 :: t)
                ++ Char.ofNat 125 :: rest))))))) := by
      rw [dumpFields_pair, quoteChars]
      simp only [List.cons_append, List.append_assoc, List.singleton_append, List.nil_append]
    rw [hform, parseFields_key f rfl, skipWs_cons_not (by decide)]
    show (match parseV f (kw ++ (dumpChars (',' :: iw) (':' :: kw) g.2
          ++ (',' :: (iw ++ (dumpFields (',' :: iw) (':' :: kw) (g2 :: t)
            ++ Char.ofNat 125 :: rest))))) with
      | some (v', rest3) =>
        match skipWs rest3 with
        | e :: rest4 =>
          if e = ',' then
            (parseFields f rest4).map (fun p => ((String.mk g.1.data, v') :: p.1, p.2))
          else if e = Char.ofNat 125 then some ([(String.mk g.1.data, v')], rest4)
          else none
        | [] => none
      | none => none) = some (g :: g2 :: t, rest)
    rw [parseV_ws_append hkw,
      parseV_dumps iw kw hiw hkw g.2 f
        (',' :: (iw ++ (dumpFields (',' :: iw) (':' :: kw) (g2 :: t)
          ++ Char.ofNat 125 :: rest)))
        (by simp only [costFields] at hf; omega) (digitFree_comma _)]
    show (parseFields f (iw ++ (dumpFields (',' :: iw) (':' :: kw) (g2 :: t)
        ++ Char.ofNat 125 :: rest))).map
        (fun p => ((String.mk g.1.data, g.2) :: p.1, p.2)) = some (g :: g2 :: t, rest)
    rw [parseFields_ws_append hiw,
      parseFields_dumps iw kw hiw hkw g2 t f rest
        (by simp only [costFields] at hf ⊢; omega)]
    rfl
termination_by sizeOf (g :: fs)
decreasing_by all_goals (simp_wf; try subst_vars; try (obtain ⟨ga, gb⟩ := g); try simp; try omega)

end

/-! ### Fuel bound: the default fuel of `loads` suffices -/

mutual

theorem cost_le_len (iw kw : List Char) (v : Json) :
    cost v ≤ (dumpChars (',' :: iw) (':' :: kw) v).length := by
  cases v with
  | null =>
    show (1 : Nat) ≤ 4
    omega
  | bool b =>
    cases b with
    | true =>
      show (1 : Nat) ≤ 4
      omega
    | false =>
      show (1 : Nat) ≤ 5
      omega
  | num n =>
    show (1 : Nat) ≤ (intChars n).length
    rw [intChars]
    by_cases hn : n < 0
    · simp [hn]
    · simp only [if_neg hn]
      exact List.length_pos.mpr (natChars_ne_nil _)
  | str s =>
    show (1 : Nat) ≤ (quoteChars s).length
    simp [quoteChars]
  | arr xs =>
    rw [dumpChars_arr]
    cases xs with
    | nil =>
      show cost (Json.arr []) ≤ _
      simp [cost, costItems]
    | cons x t =>
      have h1 := costItems_le_len iw kw x t
      show cost (Json.arr (x :: t)) ≤ _
      simp only [cost, List.length_cons, List.length_append, List.length_singleton]
      omega
  | obj fs =>
    rw [dumpChars_obj]
    cases fs with
    | nil =>
      show cost (Json.obj []) ≤ _
      simp [cost, costFields]
    | cons g t =>
      have h1 := costFields_le_len iw kw g t
      show cost (Json.obj (g :: t)) ≤ _
      simp only [cost, List.length_cons, List.length_append, List.length_singleton]
      omega
termination_by sizeOf v
decreasing_by all_goals (simp_wf; try subst_vars; try simp_arith; try omega)

theorem costItems_le_len (iw kw : List Char) (x : Json) (xs : List Json) :
    costItems (x :: xs) ≤ (dumpItems (',' :: iw) (':' :: kw) (x :: xs)).length + 1 := by
  cases xs with
  | nil =>
    have h1 := cost_le_len iw kw x
    rw [show dumpItems (',' :: iw) (':' :: kw) [x] = dumpChars (',' :: iw) (':' :: kw) x
      from by rw [dumpItems]]
    simp only [costItems]
    omega
  | cons y t =>
    have h1 := cost_le_len iw kw x
    have h2 := costItems_le_len iw kw y t
    rw [dumpItems_pair]
    simp only [costItems] at h2 ⊢
    simp only [List.length_append, List.length_cons]
    omega
termination_by sizeOf (x :: xs)
decreasing_by all_goals (simp_wf; try subst_vars; try simp_arith; try omega)

theorem costFields_le_len (iw kw : List Char) (g : String × Json)
    (fs : List (String × Json)) :
    costFields (g :: fs) ≤ (dumpFields (',' :: iw) (':' :: kw) (g :: fs)).length + 1 := by
  cases fs with
  | nil =>
    have h1 := cost_le_len iw kw g.2
    rw [dumpFields_single]
    simp only [costFields, List.length_append, List.length_cons]
    omega
  | cons g2 t =>
    have h1 := cost_le_len iw kw g.2
    have h2 := costFields_le_len iw kw g2 t
    rw [dumpFields_pair]
    simp only [costFields] at h2 ⊢
    simp only [List.length_append, List.length_cons]
    omega
termination_by sizeOf (g :: fs)
decreasing_by all_goals (simp_wf; try subst_vars; try (obtain ⟨ga, gb⟩ := g); try simp_arith; try omega)

end

/-- The receiver's JSON parse inverts this layer's `json.dumps`, for any
separator pair shaped like Python's: a comma (resp. colon) followed by
whitespace. -/
theorem loads_dumpChars (iw kw : List Char) (hiw : ∀ c ∈ iw, isWsChar c = true)
    (hkw : ∀ c ∈ kw, isWsChar c = true) (v : Json) :
    loads (dumpChars (',' :: iw) (':' :: kw) v) = some v := by
  have h := parseV_dumps iw kw hiw hkw v
    ((dumpChars (',' :: iw) (':' :: kw) v).length + 1) []
    (by have := cost_le_len iw kw v; omega) digitFree_nil
  rw [List.append_nil] at h
  rw [loads, h]
  rfl

/-! ### ASCII output of `dumps`, and the UTF-8 leg of the pipeline -/

abbrev asciiList (l : List Char) : Prop := ∀ c ∈ l, c.toNat < 128

theorem hexDigitChar_ascii {d : Nat} (h : d < 16) : (hexDigitChar d).toNat < 128 := by
  have hall : ∀ e < 16, (hexDigitChar e).toNat < 128 := by decide
  exact hall d h

theorem uEscape_ascii (n : Nat) : asciiList (uEscape n) := by
  intro c hc
  rw [uEscape] at hc
  simp only [List.mem_cons, List.mem_singleton] at hc
  rcases hc with rfl | rfl | rfl | rfl | rfl | rfl | h
  · decide
  · decide
  · exact hexDigitChar_ascii (Nat.mod_lt _ (by omega))
  · exact hexDigitChar_ascii (Nat.mod_lt _ (by omega))
  · exact hexDigitChar_ascii (Nat.mod_lt _ (by omega))
  · exact hexDigitChar_ascii (Nat.mod_lt _ (by omega))
  · simp at h

theorem escapeChar_ascii (c : Char) : asciiList (escapeChar c) := by
  rw [escapeChar]
  by_cases h1 : c = '"'
  · rw [if_pos h1]; decide
  rw [if_neg h1]
  by_cases h2 : c = '\\'
  · rw [if_pos h2]; decide
  rw [if_neg h2]
  by_cases h3 : c = '\n'
  · rw [if_pos h3]; decide
  rw [if_neg h3]
  by_cases h4 : c = '\r'
  · rw [if_pos h4]; decide
  rw [if_neg h4]
  by_cases h5 : c = '\t'
  · rw [if_pos h5]; decide
  rw [if_neg h5]
  by_cases h6 : c.toNat = 8
  · rw [if_pos h6]; decide
  rw [if_neg h6]
  by_cases h7 : c.toNat = 12
  · rw [if_pos h7]; decide
  rw [if_neg h7]
  by_cases h8 : 32 ≤ c.toNat ∧ c.toNat ≤ 126
  · rw [if_pos h8]
    intro d hd
    rw [List.mem_singleton] at hd
    subst hd
    omega
  rw [if_neg h8]
  by_cases h9 : c.toNat < 65536
  · rw [if_pos h9]
    exact uEscape_ascii _
  · rw [if_neg h9]
    intro d hd
    rcases List.mem_append.1 hd with hd | hd
    · exact uEscape_ascii _ d hd
    · exact uEscape_ascii _ d hd

theorem escapeChars_ascii (l : List Char) : asciiList (escapeChars l) := by
  intro d hd
  rw [escapeChars] at hd
  simp only [List.mem_flatten, List.mem_map] at hd
  obtain ⟨_, ⟨c, _, rfl⟩, hdl⟩ := hd
  exact escapeChar_ascii c d hdl

theorem quoteChars_ascii (s : String) : asciiList (quoteChars s) := by
  intro d hd
  rw [quoteChars] at hd
  rcases List.mem_cons.1 hd with rfl | hd
  · decide
  rcases List.mem_append.1 hd with hd | hd
  · exact escapeChars_ascii _ d hd
  · rw [List.mem_singleton] at hd; subst hd; decide

theorem natChars_ascii (n : Nat) : asciiList (natChars n) := by
  intro d hd
  have := natChars_digits n d hd
  simp only [isDigitChar, Bool.and_eq_true, decide_eq_true_eq] at this
  omega

theorem intChars_ascii (n : Int) : asciiList (intChars n) := by
  intro d hd
  rw [intChars] at hd
  by_cases hn : n < 0
  · rw [if_pos hn] at hd
    rcases List.mem_cons.1 hd with rfl | hd
    · decide
    · exact natChars_ascii _ d hd
  · rw [if_neg hn] at hd
    exact natChars_ascii _ d hd

theorem prod_snd_sizeOf_le (p : String × Json) : sizeOf p.2 ≤ sizeOf p := by
  obtain ⟨a, b⟩ := p
  simp_arith

mutual

theorem dumpChars_ascii (isep ksep : List Char) (hi : asciiList isep) (hk : asciiList ksep)
    (v : Json) : asciiList (dumpChars isep ksep v) := by
  cases v with
  | null =>
    show asciiList ['n', 'u', 'l', 'l']
    decide
  | bool b =>
    cases b with
    | true =>
      show asciiList ['t', 'r', 'u', 'e']
      decide
    | false =>
      show asciiList ['f', 'a', 'l', 's', 'e']
      decide
  | num n => exact intChars_ascii n
  | str s => exact quoteChars_ascii s
  | arr xs =>
    rw [dumpChars_arr]
    intro d hd
    rcases List.mem_cons.1 hd with rfl | hd
    · decide
    rcases List.mem_append.1 hd with hd | hd
    · exact dumpItems_ascii isep ksep hi hk xs d hd
    · rw [List.mem_singleton] at hd; subst hd; decide
  | obj fs =>
    rw [dumpChars_obj]
    intro d hd
    rcases List.mem_cons.1 hd with rfl | hd
    · decide
    rcases List.mem_append.1 hd with hd | hd
    · exact dumpFields_ascii isep ksep hi hk fs d hd
    · rw [List.mem_singleton] at hd; subst hd; decide
termination_by sizeOf v
decreasing_by all_goals (simp_wf; try subst_vars; try simp_arith; try omega)

theorem dumpItems_ascii (isep ksep : List Char) (hi : asciiList isep) (hk : asciiList ksep)
    (xs : List Json) : asciiList (dumpItems isep ksep xs) := by
  cases xs with
  | nil =>
    intro d hd
    simp only [show dumpItems isep ksep [] = [] from by rw [dumpItems]] at hd
    exact absurd hd (List.not_mem_nil d)
  | cons x t =>
    cases t with
    | nil =>
      rw [show dumpItems isep ksep [x] = dumpChars isep ksep x from by rw [dumpItems]]
      exact dumpChars_ascii isep ksep hi hk x
    | cons y t2 =>
      rw [dumpItems_pair]
      intro d hd
      rcases List.mem_append.1 hd with hd | hd
      · rcases List.mem_append.1 hd with hd | hd
        · exact dumpChars_ascii isep ksep hi hk x d hd
        · exact hi d hd
      · exact dumpItems_ascii isep ksep hi hk (y :: t2) d hd
termination_by sizeOf xs
decreasing_by all_goals (simp_wf; try subst_vars; try simp_arith; try omega)

theorem dumpFields_ascii (isep ksep : List Char) (hi : asciiList isep) (hk : asciiList ksep)
    (fs : List (String × Json)) : asciiList (dumpFields isep ksep fs) := by
  cases fs with
  | nil =>
    intro d hd
    simp only [show dumpFields isep ksep [] = [] from by rw [dumpFields]] at hd
    exact absurd hd (List.not_mem_nil d)
  | cons g t =>
    cases t with
    | nil =>
      rw [dumpFields_single]
      intro d hd
      rcases List.mem_append.1 hd with hd | hd
      · rcases List.mem_append.1 hd with hd | hd
        · exact quoteChars_ascii _ d hd
        · exact hk d hd
      · exact dumpChars_ascii isep ksep hi hk g.2 d hd
    | cons g2 t2 =>
      rw [dumpFields_pair]
      intro d hd
      rcases List.mem_append.1 hd with hd | hd
      · rcases List.mem_append.1 hd with hd | hd
        · rcases List.mem_append.1 hd with hd | hd
          · rcases List.mem_append.1 hd with hd | hd
            · exact quoteChars_ascii _ d hd
            · exact hk d hd
          · exact dumpChars_ascii isep ksep hi hk g.2 d hd
        · exact hi d hd
      · exact dumpFields_ascii isep ksep hi hk (g2 :: t2) d hd
termination_by sizeOf fs
decreasing_by
  all_goals try simp_wf
  all_goals try subst_vars
  all_goals try omega
  all_goals try (exact le_trans (prod_snd_sizeOf_le _) (by omega))
  all_goals try (exact Nat.lt_of_le_of_lt (prod_snd_sizeOf_le _) (by omega))
  all_goals try simp_arith
  all_goals try omega

end

theorem utf8EncodeChar_ascii {c : Char} (h : c.toNat < 128) :
    utf8EncodeChar c = [c.toNat] := by
  rw [utf8EncodeChar]
  simp only [if_pos h]

theorem utf8Decode_cons_ascii {b : Nat} (hb : b < 128) (rest : List Nat) :
    utf8Decode (b :: rest) = (utf8Decode rest).map (fun cs => Char.ofNat b :: cs) := by
  rw [utf8Decode, if_pos hb]

/-- The UTF-8 round trip on ASCII text, which is all `json.dumps` with
`ensure_ascii=True` ever emits. -/
theorem utf8Decode_encode {l : List Char} (h : asciiList l) :
    utf8Decode (utf8Encode l) = some l := by
  induction l with
  | nil => rfl
  | cons c t ih =>
    have hc : c.toNat < 128 := h c (by simp)
    have ht : asciiList t := fun d hd => h d (by simp [hd])
    show utf8Decode ((utf8EncodeChar c :: (t.map utf8EncodeChar)).flatten) = _
    rw [List.flatten_cons, utf8EncodeChar_ascii hc, List.singleton_append,
      utf8Decode_cons_ascii hc]
    show (utf8Decode (utf8Encode t)).map _ = _
    rw [ih ht]
    simp [Char.ofNat_toNat]

theorem utf8Encode_lt256 (l : List Char) : ∀ b ∈ utf8Encode l, b < 256 := by
  intro b hb
  rw [utf8Encode] at hb
  simp only [List.mem_flatten, List.mem_map] at hb
  obtain ⟨_, ⟨c, _, rfl⟩, hbl⟩ := hb
  have hcv := char_toNat_lt c
  rw [utf8EncodeChar] at hbl
  by_cases h1 : c.toNat < 128
  · rw [if_pos h1] at hbl
    rw [List.mem_singleton] at hbl
    omega
  rw [if_neg h1] at hbl
  by_cases h2 : c.toNat < 2048
  · rw [if_pos h2] at hbl
    rcases List.mem_cons.1 hbl with rfl | hbl
    · omega
    · rw [List.mem_singleton] at hbl; omega
  rw [if_neg h2] at hbl
  by_cases h3 : c.toNat < 65536
  · rw [if_pos h3] at hbl
    rcases List.mem_cons.1 hbl with rfl | hbl
    · omega
    rcases List.mem_cons.1 hbl with rfl | hbl
    · omega
    · rw [List.mem_singleton] at hbl; omega
  · rw [if_neg h3] at hbl
    rcases List.mem_cons.1 hbl with rfl | hbl
    · omega
    rcases List.mem_cons.1 hbl with rfl | hbl
    · omega
    rcases List.mem_cons.1 hbl with rfl | hbl
    · omega
    · rw [List.mem_singleton] at hbl; omega

/-! ### base64 round trip -/

theorem b64Char_ne_eq {n : Nat} (h : n < 64) : ¬b64Char n = '=' := by
  have hall : ∀ m < 64, ¬b64Char m = '=' := by decide
  exact hall n h

theorem b64Val_b64Char {n : Nat} (h : n < 64) : b64Val (b64Char n) = some n := by
  have hall : ∀ m < 64, b64Val (b64Char m) = some m := by decide
  exact hall n h

theorem b64decode_encode (bs : List Nat) (h : ∀ b ∈ bs, b < 256) :
    b64decode (b64encode bs) = some bs := by
  match bs with
  | [] => rfl
  | [b1] =>
    have hb1 : b1 < 256 := h b1 (by simp)
    rw [show b64encode [b1] = [b64Char (b1 / 4), b64Char (b1 % 4 * 16), '=', '=']
      from by rw [b64encode]]
    rw [b64decode]
    simp only [b64Val_b64Char (show b1 / 4 < 64 by omega),
      b64Val_b64Char (show b1 % 4 * 16 < 64 by omega)]
    rw [if_pos trivial, if_pos ⟨trivial, trivial, by omega⟩]
    have he : b1 / 4 * 4 + b1 % 4 * 16 / 16 = b1 := by omega
    rw [he]
  | [b1, b2] =>
    have hb1 : b1 < 256 := h b1 (by simp)
    have hb2 : b2 < 256 := h b2 (by simp)
    rw [show b64encode [b1, b2]
        = [b64Char (b1 / 4), b64Char (b1 % 4 * 16 + b2 / 16), b64Char (b2 % 16 * 4), '=']
      from by rw [b64encode]]
    rw [b64decode]
    simp only [b64Val_b64Char (show b1 / 4 < 64 by omega),
      b64Val_b64Char (show b1 % 4 * 16 + b2 / 16 < 64 by omega),
      b64Val_b64Char (show b2 % 16 * 4 < 64 by omega)]
    rw [if_neg (b64Char_ne_eq (show b2 % 16 * 4 < 64 by omega)), if_pos trivial,
      if_pos ⟨trivial, by omega⟩]
    have he1 : b1 / 4 * 4 + (b1 % 4 * 16 + b2 / 16) / 16 = b1 := by omega
    have he2 : (b1 % 4 * 16 + b2 / 16) % 16 * 16 + b2 % 16 * 4 / 4 = b2 := by omega
    rw [he1, he2]
  | b1 :: b2 :: b3 :: b4 :: rest =>
    have hb1 : b1 < 256 := h b1 (by simp)
    have hb2 : b2 < 256 := h b2 (by simp)
    have hb3 : b3 < 256 := h b3 (by simp)
    rw [show b64encode (b1 :: b2 :: b3 :: b4 :: rest)
        = b64Char (b1 / 4) :: b64Char (b1 % 4 * 16 + b2 / 16) ::
          b64Char (b2 % 16 * 4 + b3 / 64) :: b64Char (b3 % 64) :: b64encode (b4 :: rest)
      from by rw [b64encode]]
    rw [b64decode]
    simp only [b64Val_b64Char (show b1 / 4 < 64 by omega),
      b64Val_b64Char (show b1 % 4 * 16 + b2 / 16 < 64 by omega),
      b64Val_b64Char (show b2 % 16 * 4 + b3 / 64 < 64 by omega),
      b64Val_b64Char (show b3 % 64 < 64 by omega)]
    rw [if_neg (b64Char_ne_eq (show b2 % 16 * 4 + b3 / 64 < 64 by omega)),
      if_neg (b64Char_ne_eq (show b3 % 64 < 64 by omega)),
      b64decode_encode (b4 :: rest) (fun b hb => h b (by simp at hb ⊢; tauto))]
    have he1 : b1 / 4 * 4 + (b1 % 4 * 16 + b2 / 16) / 16 = b1 := by omega
    have he2 : (b1 % 4 * 16 + b2 / 16) % 16 * 16 + (b2 % 16 * 4 + b3 / 64) / 4 = b2 := by
      omega
    have he3 : (b2 % 16 * 4 + b3 / 64) % 4 * 64 + b3 % 64 = b3 := by omega
    rw [he1, he2, he3]
    rfl
  | [b1, b2, b3] =>
    have hb1 : b1 < 256 := h b1 (by simp)
    have hb2 : b2 < 256 := h b2 (by simp)
    have hb3 : b3 < 256 := h b3 (by simp)
    rw [show b64encode [b1, b2, b3]
        = [b64Char (b1 / 4), b64Char (b1 % 4 * 16 + b2 / 16),
           b64Char (b2 % 16 * 4 + b3 / 64), b64Char (b3 % 64)]
      from rfl]
    rw [b64decode]
    simp only [b64Val_b64Char (show b1 / 4 < 64 by omega),
      b64Val_b64Char (show b1 % 4 * 16 + b2 / 16 < 64 by omega),
      b64Val_b64Char (show b2 % 16 * 4 + b3 / 64 < 64 by omega),
      b64Val_b64Char (show b3 % 64 < 64 by omega)]
    rw [if_neg (b64Char_ne_eq (show b2 % 16 * 4 + b3 / 64 < 64 by omega)),
      if_neg (b64Char_ne_eq (show b3 % 64 < 64 by omega))]
    have he1 : b1 / 4 * 4 + (b1 % 4 * 16 + b2 / 16) / 16 = b1 := by omega
    have he2 : (b1 % 4 * 16 + b2 / 16) % 16 * 16 + (b2 % 16 * 4 + b3 / 64) / 4 = b2 := by
      omega
    have he3 : (b2 % 16 * 4 + b3 / 64) % 4 * 64 + b3 % 64 = b3 := by omega
    rw [he1, he2, he3]
    rfl
termination_by bs.length
decreasing_by
  all_goals try simp_wf
  all_goals try subst_vars
  all_goals try simp_arith
  all_goals try omega

/-! ### Events, errors, effects -/

/-- Modelled from the spec: the event contract exposed by the producer:
`type` (kind tag), `data` (raw line, sent by the Kafka sink) and `raw_data`
(the structured payload used by the other sinks). -/
structure Event where
  type : String
  data : String
  raw_data : Json

/-- Modelled from the spec: `OutputError` from the repository's exception
module is the error this layer raises for configuration problems — the
spec's `ConfigurationError`. `exn` stands for any other Python exception
(`Exception`, `AttributeError`, a library error, ...). -/
inductive Err where
  | outputError (msg : String)
  | exn (msg : String)
deriving DecidableEq

def raisesOutputError {α : Type} : Except Err α → Bool
  | .error (.outputError _) => true
  | _ => false

def raisesError {α : Type} : Except Err α → Bool
  | .error _ => true
  | _ => false

/-- Modelled from the spec: the producer context bound by `catch`, exposing
the parser's ordered field names (`agent.parser.fieldnames`). -/
structure AgentCtx where
  fieldnames : List String

/-- Request body of an HTTP POST: the compact-JSON string if the
Content-Type header is exactly `application/json`, the raw data otherwise. -/
inductive BodyData where
  | jsonStr (s : String)
  | raw (d : Json)

/-- Observable backend writes and log lines. -/
inductive Effect where
  | logInfo (msg : String)
  | httpGet (url : String) (params : Json) (headers : List (String × String))
  | httpPost (url : String) (body : BodyData) (headers : List (String × String))
  | kafkaSend (topic : String) (msgs : List String)
  | sqlExecute (session : Nat) (stmt : String) (params : List Json)
  | sqlCommit (session : Nat)

def lookupHeader (hs : List (String × String)) (k : String) : Option String :=
  (hs.find? (fun p => p.1 == k)).map (fun p => p.2)

/-- `dict.setdefault`: keep an existing entry, otherwise add the default. -/
def setdefault (hs : List (String × String)) (k v : String) : List (String × String) :=
  if (hs.find? (fun p => p.1 == k)).isSome then hs else hs ++ [(k, v)]

/-- `str.upper` (ASCII, as the method strings here are). -/
def upper (s : String) : String := String.mk (s.data.map Char.toUpper)

/-- Stands for the package's `__version__`; its value is irrelevant to every
claim. -/
def version : String := "0.1.0"

/-! ### `HTTPRequest` (transport sink) -/

structure HTTPRequest where
  server : String
  method : String
  headers : List (String × String)
  agent : Option AgentCtx

/-- `HTTPRequest.__init__`: upper-cases the method and defaults the
`User-Agent` header. -/
def HTTPRequest.init (server : String) (headers : Option (List (String × String)))
    (method : String) : HTTPRequest :=
  { server := server
    method := upper method
    headers := setdefault (headers.getD []) "User-Agent"
      ("python-Agent " ++ version ++ " HTTPRequest")
    agent := none }

/-- `HTTPRequest.data`: compact JSON iff the Content-Type header is exactly
`application/json`, else the data unencoded. -/
def HTTPRequest.data (self : HTTPRequest) (d : Json) : BodyData :=
  if lookupHeader self.headers "Content-Type" = some "application/json" then
    .jsonStr (dumps "," ":" d)
  else .raw d

/-- `HTTPRequest.send`: query parameters for GET, body for POST, silent no-op
for any other (already upper-cased) method. The log line's response part is
not modelled. -/
def HTTPRequest.send (self : HTTPRequest) (event : Event) : List Effect :=
  if self.method = "GET" then
    [.httpGet self.server event.raw_data self.headers, .logInfo "OUTPUT INSERT Request 1"]
  else if self.method = "POST" then
    [.httpPost self.server (self.data event.raw_data) self.headers,
     .logInfo "OUTPUT INSERT Request 1"]
  else []

/-- `HTTPRequest.package`: `base64(gzip(utf8(json.dumps(list of raw_data))))`.
gzip is the external library; it enters as the abstract compressor `gz`,
constrained in the theorems by its round-trip contract. `json.dumps` uses its
default separators `", "` and `": "` and `ensure_ascii=True`. -/
def HTTPRequest.package (gz : List Nat → List Nat) (events : List Event) : String :=
  String.mk (b64encode (gz (utf8Encode
    (dumps ", " ": " (Json.arr (events.map Event.raw_data))).data)))

/-- The batch payload `{'data': package(events), 'gzip': '1'}`. -/
def HTTPRequest.sendmanyData (gz : List Nat → List Nat) (events : List Event) : Json :=
  Json.obj [("data", .str (HTTPRequest.package gz events)), ("gzip", .str "1")]

/-- `HTTPRequest.sendmany`: the batch payload as GET parameters or POST body;
silent no-op for any other method. -/
def HTTPRequest.sendmany (gz : List Nat → List Nat) (self : HTTPRequest)
    (events : List Event) : List Effect :=
  if self.method = "GET" then
    [.httpGet self.server (HTTPRequest.sendmanyData gz events) self.headers,
     .logInfo ("OUTPUT INSERT Request " ++ toString events.length)]
  else if self.method = "POST" then
    [.httpPost self.server (self.data (HTTPRequest.sendmanyData gz events)) self.headers,
     .logInfo ("OUTPUT INSERT Request " ++ toString events.length)]
  else []

/-- The receiver's decoding steps from the spec: base64-decode, gunzip,
decode the bytes as text and JSON-parse. -/
def decodePayload (gunz : List Nat → List Nat) (d : String) : Option Json :=
  (b64decode d.data).bind fun bs =>
    (utf8Decode (gunz bs)).bind fun cs => loads cs

/-! ### `Kafka` (broker sink) -/

structure Kafka where
  topic : String
  producer : Option Nat
  agent : Option AgentCtx

/-- `Kafka.send`: raises `OutputError('No producer init')` without a
producer, else forwards `event.data` to the topic. -/
def Kafka.send (k : Kafka) (e : Event) : Except Err (List Effect) :=
  match k.producer with
  | none => .error (.outputError "No producer init")
  | some _ => .ok [.kafkaSend k.topic [e.data], .logInfo "OUTPUT INSERT Kafka 1"]

def Kafka.sendmany (k : Kafka) (es : List Event) : Except Err (List Effect) :=
  match k.producer with
  | none => .error (.outputError "No producer init")
  | some _ => .ok [.kafkaSend k.topic (es.map Event.data),
      .logInfo ("OUTPUT INSERT Kafka " ++ toString es.length)]

/-- `Kafka.close`: drop the producer if there is one. -/
def Kafka.close (k : Kafka) : Kafka :=
  if k.producer.isSome then { k with producer := none } else k

/-! ### `Csv` (file sink)

Files are a map from path to the list of rows written; the open handle
always points at the sink's `filename`, which the code maintains (`archive`
reopens immediately after renaming). `flush` has no logical effect here. -/

def FileSys : Type := String → Option (List (List String))

def fsEmpty : FileSys := fun _ => none

def fsLookup (fs : FileSys) (p : String) : Option (List (List String)) := fs p

def fsSet (fs : FileSys) (p : String) (content : List (List String)) : FileSys :=
  fun q => if q = p then some content else fs q

def fsRemove (fs : FileSys) (p : String) : FileSys :=
  fun q => if q = p then none else fs q

def fsAppend (fs : FileSys) (p : String) (row : List String) : FileSys :=
  fsSet fs p ((fsLookup fs p).getD [] ++ [row])

/-- `str(value)` for a CSV cell, as `csv.DictWriter` renders it. Containers
are abstracted (no claim depends on them). -/
def pyStr : Json → String
  | .null => ""
  | .bool true => "True"
  | .bool false => "False"
  | .num n => String.mk (intChars n)
  | .str s => s
  | .arr _ => "<list>"
  | .obj _ => "<dict>"

def jsonLookup (kvs : List (String × Json)) (k : String) : Option Json :=
  (kvs.find? (fun p => p.1 == k)).map (fun p => p.2)

/-- One `DictWriter` row: fields in schema order, missing keys as the
default `restval` (the empty string). -/
def csvCells (fns : List String) (kvs : List (String × Json)) : List String :=
  fns.map (fun f => match jsonLookup kvs f with
    | some v => pyStr v
    | none => "")

structure Csv where
  filename : String
  fieldnames : Option (List String)
  writer : Option (List String)
  agent : Option AgentCtx

/-- `Csv.__init__`: opens (truncates/creates) the file immediately. -/
def Csv.init (filename : String) (fieldnames : Option (List String)) (fs : FileSys) :
    Csv × FileSys :=
  ({ filename := filename, fieldnames := fieldnames, writer := none, agent := none },
   fsSet fs filename [])

/-- Python's `x or y`: `y` when `x` is `None` or empty. -/
def orFieldnames (x : Option (List String)) (y : List String) : List String :=
  match x with
  | some l => if l.isEmpty then y else l
  | none => y

/-- `Csv.catch`: resolve the schema, create the `DictWriter`, write the
header row once. -/
def Csv.catch (c : Csv) (agent : AgentCtx) (fs : FileSys) : Csv × FileSys :=
  let fns := orFieldnames c.fieldnames agent.fieldnames
  ({ c with agent := some agent, fieldnames := some fns, writer := some fns },
   fsAppend fs c.filename fns)

/-- `DictWriter.writerow` on one event: fails before `catch` (no writer),
fails on a non-mapping or on keys outside the schema (`extrasaction`
defaults to `raise`), else appends the row. -/
def Csv.writerow (c : Csv) (fs : FileSys) (d : Json) : Except Err FileSys :=
  match c.writer with
  | none => .error (.exn "AttributeError: NoneType has no attribute writerow")
  | some wfns =>
    match d with
    | .obj kvs =>
      if kvs.all (fun kv => wfns.contains kv.1) then
        .ok (fsAppend fs c.filename (csvCells wfns kvs))
      else .error (.exn "ValueError: dict contains fields not in fieldnames")
    | _ => .error (.exn "row is not a mapping")

def Csv.send (c : Csv) (fs : FileSys) (e : Event) :
    Except Err (Csv × FileSys × List Effect) :=
  (c.writerow fs e.raw_data).map (fun fs' => (c, fs', [.logInfo "OUTPUT INSERT CSV 1"]))

/-- `DictWriter.writerows`: write each row in order, stopping at the first
failure (which aborts the whole Python call). -/
def Csv.writerows (c : Csv) (fs : FileSys) : List Json → Except Err FileSys
  | [] => .ok fs
  | d :: t => (c.writerow fs d).bind fun fs2 => c.writerows fs2 t

def Csv.sendmany (c : Csv) (fs : FileSys) (es : List Event) :
    Except Err (Csv × FileSys × List Effect) :=
  (c.writerows fs (es.map Event.raw_data)).map
    (fun fs2 => (c, fs2, [.logInfo ("OUTPUT INSERT CSV " ++ toString es.length)]))

/-- `Csv.archive(filename)`: refuse the current path outright; otherwise
`os.renames` the file, reopen a fresh one at the original path, rebuild the
writer and rewrite the header. The source and schema lookups are the
failure points of `os.renames` and `DictWriter(fp, None).writeheader()`. -/
def Csv.archive (c : Csv) (fs : FileSys) (filename : String) : Except Err (Csv × FileSys) :=
  if filename = c.filename then
    .error (.exn ("archive name is same as old (" ++ filename ++ ")"))
  else
    match fsLookup fs c.filename with
    | none => .error (.exn "OSError: no such file or directory")
    | some content =>
      match c.fieldnames with
      | none => .error (.exn "TypeError: fieldnames is None")
      | some fns =>
        let fs1 := fsSet (fsRemove fs c.filename) filename content
        let fs2 := fsSet fs1 c.filename []
        let fs3 := fsAppend fs2 c.filename fns
        .ok ({ c with writer := some fns }, fs3)

/-! ### `SQLAlchemy` (database sink) -/

structure SQLAlchemy where
  quote : String
  fields : Option (List String)
  engine : Nat
  sessionH : Option Nat
  timer : Option Nat
  tableName : String
  sql : Option String
  nextHandle : Nat
  closed : List Nat
  agent : Option AgentCtx

/-- `SQLAlchemy.__init__`. `importOk` models whether
`from sqlalchemy import ...` succeeds — its failure is wrapped into
`OutputError`. `engineResult` models `create_engine(*args, **kwargs)`,
which the source does NOT wrap in try/except: its failure propagates as
the raw library exception. -/
def SQLAlchemy.init (table : String) (importOk : Bool) (engineResult : Except String Nat)
    (quote : String) (fieldnames : Option (List String)) : Except Err SQLAlchemy :=
  if importOk = false then
    .error (.outputError
      "Lack of SQLAlchemy module, try to execute `pip install SQLAlchemy` install it")
  else
    match engineResult with
    | .error msg => .error (.exn msg)
    | .ok eng =>
      .ok { quote := quote, fields := fieldnames, engine := eng, sessionH := none,
            timer := none, tableName := table, sql := none, nextHandle := 0,
            closed := [], agent := none }

/-- The `table` property: the quoted table name. -/
def SQLAlchemy.table (s : SQLAlchemy) : String := s.quote ++ s.tableName ++ s.quote

/-- `','.join`. -/
def joinComma : List String → String
  | [] => ""
  | [x] => x
  | x :: y :: t => x ++ "," ++ joinComma (y :: t)

/-- `SQLAlchemy.catch`: resolve the column list and pre-build the one
parameterized INSERT statement. -/
def SQLAlchemy.catch (s : SQLAlchemy) (agent : AgentCtx) : SQLAlchemy :=
  let fieldnames := orFieldnames s.fields agent.fieldnames
  let keys := joinComma (fieldnames.map (fun k => s.quote ++ k ++ s.quote))
  let values := joinComma (fieldnames.map (fun k => ":" ++ k))
  { s with
    agent := some agent
    fields := some fieldnames
    sql := some ("INSERT INTO " ++ s.table ++ " (" ++ keys ++ ") VALUES (" ++ values ++ ")") }

/-- The `session` property at current time `t` (seconds): create lazily,
reuse within the 900-second window (`time.time() - self._timer > 900` is the
replacement test; truncated `Nat` subtraction matches the float comparison,
both reuse when the clock ran backwards), else close and replace. Handles
are drawn from the `nextHandle` counter, so a fresh handle is distinct from
every live one. -/
def SQLAlchemy.session (s : SQLAlchemy) (t : Nat) : Nat × SQLAlchemy :=
  match s.sessionH with
  | none =>
    (s.nextHandle, { s with
      timer := some t
      sessionH := some s.nextHandle
      nextHandle := s.nextHandle + 1 })
  | some h =>
    if t - s.timer.getD 0 > 900 then
      (s.nextHandle, { s with
        closed := h :: s.closed
        sessionH := some s.nextHandle
        timer := some t
        nextHandle := s.nextHandle + 1 })
    else (h, s)

/-- `SQLAlchemy.send`: execute the pre-built statement and commit. The
`session` property is read twice, as in `self.session.execute(...)`
followed by `self.session.commit()`. Before `catch` there is no `sql`
attribute, which is an `AttributeError`. -/
def SQLAlchemy.send (s : SQLAlchemy) (t : Nat) (e : Event) :
    Except Err (SQLAlchemy × List Effect) :=
  match s.sql with
  | none => .error (.exn "AttributeError: sql")
  | some q =>
    let p1 := s.session t
    let p2 := p1.2.session t
    .ok (p2.2, [.sqlExecute p1.1 q [e.raw_data], .sqlCommit p2.1, .logInfo "SQL send 1"])

def SQLAlchemy.sendmany (s : SQLAlchemy) (t : Nat) (es : List Event) :
    Except Err (SQLAlchemy × List Effect) :=
  match s.sql with
  | none => .error (.exn "AttributeError: sql")
  | some q =>
    let p1 := s.session t
    let p2 := p1.2.session t
    .ok (p2.2, [.sqlExecute p1.1 q (es.map Event.raw_data), .sqlCommit p2.1,
      .logInfo ("SQL send " ++ toString es.length)])

/-! ### `Null` (no-op sink) -/

structure Null where
  agent : Option AgentCtx

def Null.init : Null := { agent := none }

/-- `Null.send` is `pass`: no error, no effect, no state change. -/
def Null.send (n : Null) (e : Event) : Except Err (Null × List Effect) := .ok (n, [])

/-- `Null.sendmany` is `pass` as well. -/
def Null.sendmany (n : Null) (es : List Event) : Except Err (Null × List Effect) :=
  .ok (n, [])

/-! ### File-system lemmas -/

theorem fsLookup_set_self (fs : FileSys) (p : String) (x : List (List String)) :
    fsLookup (fsSet fs p x) p = some x := by
  show (if p = p then some x else fs p) = some x
  rw [if_pos rfl]

theorem fsLookup_set_ne (fs : FileSys) (p : String) (x : List (List String)) (q : String)
    (h : ¬q = p) : fsLookup (fsSet fs p x) q = fsLookup fs q := by
  show (if q = p then some x else fs q) = fs q
  rw [if_neg h]

theorem fsLookup_append_self (fs : FileSys) (p : String) (row : List String) :
    fsLookup (fsAppend fs p row) p = some ((fsLookup fs p).getD [] ++ [row]) :=
  fsLookup_set_self _ _ _

theorem fsLookup_append_ne (fs : FileSys) (p : String) (row : List String) (q : String)
    (h : ¬q = p) : fsLookup (fsAppend fs p row) q = fsLookup fs q :=
  fsLookup_set_ne _ _ _ _ h

/-- `writerow` on a mapping whose keys all lie in the schema appends the
rendered row to the sink's file. -/
theorem writerow_ok (c : Csv) (fs : FileSys) (fns : List String)
    (kvs : List (String × Json)) (hw : c.writer = some fns)
    (hk : kvs.all (fun kv => fns.contains kv.1) = true) :
    c.writerow fs (Json.obj kvs) = .ok (fsAppend fs c.filename (csvCells fns kvs)) := by
  rw [Csv.writerow.eq_def, hw]
  show (if kvs.all (fun kv => fns.contains kv.1) then
      (Except.ok (fsAppend fs c.filename (csvCells fns kvs)) : Except Err FileSys)
    else .error (.exn "ValueError: dict contains fields not in fieldnames")) = _
  rw [if_pos hk]

/-! ### Session lemmas -/

/-- Reading the `session` property never touches the stored statement. -/
theorem session_sql (s : SQLAlchemy) (t : Nat) : (s.session t).2.sql = s.sql := by
  rw [SQLAlchemy.session.eq_def]
  split
  · rfl
  · split
    · rfl
    · rfl

/-- Within the 900-second window the session is reused and the sink is
unchanged. -/
theorem session_reuse (s : SQLAlchemy) (h0 t0 t : Nat)
    (hh : s.sessionH = some h0) (ht : s.timer = some t0) (hle : t - t0 ≤ 900) :
    s.session t = (h0, s) := by
  simp only [SQLAlchemy.session.eq_def, hh, ht, Option.getD_some]
  rw [if_neg (by omega)]

/-- Past the 900-second window the old session is closed and a fresh handle
is issued, with the timer reset. -/
theorem session_replace (s : SQLAlchemy) (h0 t0 t : Nat)
    (hh : s.sessionH = some h0) (ht : s.timer = some t0) (hgt : t - t0 > 900) :
    s.session t = (s.nextHandle, { s with
      closed := h0 :: s.closed
      sessionH := some s.nextHandle
      timer := some t
      nextHandle := s.nextHandle + 1 }) := by
  simp only [SQLAlchemy.session.eq_def, hh, ht, Option.getD_some]
  rw [if_pos hgt]

/-- Evaluation of `SQLAlchemy.send` through the two `session` reads. -/
theorem send_eval (s : SQLAlchemy) (q : String) (t : Nat) (e : Event)
    (h1 : Nat) (s1 : SQLAlchemy) (h2 : Nat) (s2 : SQLAlchemy)
    (hq : s.sql = some q) (hs1 : s.session t = (h1, s1)) (hs2 : s1.session t = (h2, s2)) :
    s.send t e = .ok (s2, [.sqlExecute h1 q [e.raw_data], .sqlCommit h2,
      .logInfo "SQL send 1"]) := by
  have hbody : s.send t e = .ok (((s.session t).2.session t).2,
      [.sqlExecute (s.session t).1 q [e.raw_data], .sqlCommit ((s.session t).2.session t).1,
       .logInfo "SQL send 1"]) := by
    rw [SQLAlchemy.send.eq_def, hq]
  rw [hbody, hs1]
  show (Except.ok ((s1.session t).2, [Effect.sqlExecute h1 q [e.raw_data],
    Effect.sqlCommit (s1.session t).1, Effect.logInfo "SQL send 1"])
    : Except Err (SQLAlchemy × List Effect)) = _
  rw [hs2]

/-- Evaluation of `SQLAlchemy.sendmany` through the two `session` reads. -/
theorem sendmany_eval (s : SQLAlchemy) (q : String) (t : Nat) (es : List Event)
    (h1 : Nat) (s1 : SQLAlchemy) (h2 : Nat) (s2 : SQLAlchemy)
    (hq : s.sql = some q) (hs1 : s.session t = (h1, s1)) (hs2 : s1.session t = (h2, s2)) :
    s.sendmany t es = .ok (s2, [.sqlExecute h1 q (es.map Event.raw_data), .sqlCommit h2,
      .logInfo ("SQL send " ++ toString es.length)]) := by
  have hbody : s.sendmany t es = .ok (((s.session t).2.session t).2,
      [.sqlExecute (s.session t).1 q (es.map Event.raw_data),
       .sqlCommit ((s.session t).2.session t).1,
       .logInfo ("SQL send " ++ toString es.length)]) := by
    rw [SQLAlchemy.sendmany.eq_def, hq]
  rw [hbody, hs1]
  show (Except.ok ((s1.session t).2, [Effect.sqlExecute h1 q (es.map Event.raw_data),
    Effect.sqlCommit (s1.session t).1, Effect.logInfo ("SQL send " ++ toString es.length)])
    : Except Err (SQLAlchemy × List Effect)) = _
  rw [hs2]

/-! ### Claim theorems -/

/-- C8: for every event `E`, `send(E)` on the `Null` sink completes normally,
raises no error and produces no observable effect or state change; likewise
`sendmany` on any list of events. -/
theorem null_send_no_side_effects (n : Null) (e : Event) (es : List Event) :
    n.send e = .ok (n, []) ∧ n.sendmany es = .ok (n, []) :=
  ⟨rfl, rfl⟩

/-- C10: after `close()`, `send` and `sendmany` on the Kafka sink raise
`OutputError('No producer init')` — and since the error result carries no
effects, nothing is delivered to the broker — and a second `close` is a
no-op. -/
theorem kafka_send_after_close (k : Kafka) (e : Event) (es : List Event) :
    k.close.send e = .error (.outputError "No producer init")
    ∧ k.close.sendmany es = .error (.outputError "No producer init")
    ∧ k.close.close = k.close := by
  have hp : k.close.producer = none := by
    rw [Kafka.close]
    by_cases h : k.producer.isSome
    · rw [if_pos h]
    · rw [if_neg h]
      exact Option.not_isSome_iff_eq_none.mp h
  refine ⟨?_, ?_, ?_⟩
  · rw [Kafka.send, hp]
  · rw [Kafka.sendmany, hp]
  · conv_lhs => rw [Kafka.close]
    rw [hp, if_neg (by decide)]

/-- C9: a transport sink constructed with a method that upper-cases to
neither GET nor POST performs no backend request, emits no log record and
raises no error on `send` and `sendmany`: both return the empty effect
list. -/
theorem httprequest_other_method_noop (server : String)
    (hs : Option (List (String × String))) (m : String) (gz : List Nat → List Nat)
    (e : Event) (es : List Event) (hget : ¬upper m = "GET") (hpost : ¬upper m = "POST") :
    (HTTPRequest.init server hs m).send e = []
    ∧ HTTPRequest.sendmany gz (HTTPRequest.init server hs m) es = [] := by
  have hm : (HTTPRequest.init server hs m).method = upper m := rfl
  constructor
  · rw [HTTPRequest.send, hm, if_neg hget, if_neg hpost]
  · rw [HTTPRequest.sendmany, hm, if_neg hget, if_neg hpost]

/-- Witness for C9 at the concrete method `put`. -/
theorem httprequest_other_method_noop_witness :
    (¬upper "put" = "GET") ∧ (¬upper "put" = "POST")
    ∧ (HTTPRequest.init "http://h" none "put").send ⟨"k", "d", Json.null⟩ = []
    ∧ HTTPRequest.sendmany id (HTTPRequest.init "http://h" none "put")
        [⟨"k", "d", Json.null⟩] = [] := by
  refine ⟨by decide, by decide, ?_, ?_⟩
  · exact (httprequest_other_method_noop "http://h" none "put" id ⟨"k", "d", Json.null⟩
      [⟨"k", "d", Json.null⟩] (by decide) (by decide)).1
  · exact (httprequest_other_method_noop "http://h" none "put" id ⟨"k", "d", Json.null⟩
      [⟨"k", "d", Json.null⟩] (by decide) (by decide)).2

/-- C6: with a method upper-casing to POST, `send` posts a body built by
`HTTPRequest.data`: it is the compact JSON serialization of the raw data
(separators `(",", ":")`, no extraneous whitespace) iff the Content-Type
header is exactly `application/json`, and the raw payload unencoded
otherwise. -/
theorem httprequest_post_json_body (server : String) (hs : List (String × String))
    (m : String) (e : Event) (hpost : upper m = "POST") :
    (HTTPRequest.init server (some hs) m).send e
      = [.httpPost server ((HTTPRequest.init server (some hs) m).data e.raw_data)
           (HTTPRequest.init server (some hs) m).headers,
         .logInfo "OUTPUT INSERT Request 1"]
    ∧ ((HTTPRequest.init server (some hs) m).data e.raw_data
          = .jsonStr (dumps "," ":" e.raw_data)
        ↔ lookupHeader (HTTPRequest.init server (some hs) m).headers "Content-Type"
            = some "application/json")
    ∧ (¬lookupHeader (HTTPRequest.init server (some hs) m).headers "Content-Type"
          = some "application/json"
        → (HTTPRequest.init server (some hs) m).data e.raw_data = .raw e.raw_data) := by
  have hm : (HTTPRequest.init server (some hs) m).method = "POST" := hpost
  have hsrv : (HTTPRequest.init server (some hs) m).server = server := rfl
  refine ⟨?_, ?_, ?_⟩
  · rw [HTTPRequest.send, hm, if_neg (by decide), if_pos rfl, hsrv]
  · rw [HTTPRequest.data]
    by_cases hc : lookupHeader (HTTPRequest.init server (some hs) m).headers "Content-Type"
        = some "application/json"
    · rw [if_pos hc]
      exact ⟨fun _ => hc, fun _ => rfl⟩
    · rw [if_neg hc]
      exact ⟨fun h => absurd h (fun h => BodyData.noConfusion h), fun h => absurd h hc⟩
  · intro hc
    rw [HTTPRequest.data, if_neg hc]

/-- Witness for C6: the claim's own scenario — Content-Type
`application/json`, method `Post`, raw data `{"a": 1}` serializes to
exactly the seven characters of the compact form. -/
theorem httprequest_post_json_body_witness :
    upper "Post" = "POST"
    ∧ (HTTPRequest.init "http://h" (some [("Content-Type", "application/json")])
        "Post").data (Json.obj [("a", Json.num 1)])
      = .jsonStr (String.mk [Char.ofNat 123, '"', 'a', '"', ':', '1', Char.ofNat 125])
    ∧ ((HTTPRequest.init "http://h" (some [("Content-Type", "application/json")])
          "Post").data (Json.obj [("a", Json.num 1)])
        = .jsonStr (dumps "," ":" (Json.obj [("a", Json.num 1)]))
      ↔ lookupHeader (HTTPRequest.init "http://h"
          (some [("Content-Type", "application/json")]) "Post").headers "Content-Type"
          = some "application/json") := by
  refine ⟨rfl, rfl, ?_⟩
  exact (httprequest_post_json_body "http://h" [("Content-Type", "application/json")]
    "Post" ⟨"x", "", Json.obj [("a", Json.num 1)]⟩ rfl).2.1

/-- C3 counterexample: rotating to the sink's current path does fail and
leaves everything untouched, but the exception raised is the bare Python
`Exception`, not the `OutputError`/`ConfigurationError` type the claim
names. -/
theorem csv_archive_same_counterexample :
    raisesError ((Csv.init "out.csv" (some ["a", "b"]) fsEmpty).1.archive
      (Csv.init "out.csv" (some ["a", "b"]) fsEmpty).2 "out.csv") = true
    ∧ raisesOutputError ((Csv.init "out.csv" (some ["a", "b"]) fsEmpty).1.archive
      (Csv.init "out.csv" (some ["a", "b"]) fsEmpty).2 "out.csv") = false :=
  ⟨rfl, rfl⟩

/-- C3 (amended): `archive` with the current path always fails — before any
rename, reopen or header write, so the sink state and the file are
untouched (the error result carries no new state) — but with a generic
`Exception('archive name is same as old (...)')`, not `OutputError`. -/
theorem csv_archive_same_path_fails (c : Csv) (fs : FileSys) :
    c.archive fs c.filename
      = .error (.exn ("archive name is same as old (" ++ c.filename ++ ")")) := by
  rw [Csv.archive, if_pos rfl]

/-- C7 counterexample: when `create_engine` raises, the constructor does
fail and produces no sink, but the exception propagates unwrapped — it is
not an `OutputError`/`ConfigurationError`. -/
theorem sqlalchemy_init_engine_counterexample :
    SQLAlchemy.init "t" true (.error "boom") "`" none = .error (.exn "boom")
    ∧ raisesOutputError (SQLAlchemy.init "t" true (.error "boom") "`" none) = false :=
  ⟨rfl, rfl⟩

/-- C7 (amended): constructing the database sink fails in both failure
cases and never produces a sink object; a missing SQLAlchemy module is
wrapped into `OutputError`, while a failing `create_engine` propagates the
raw library exception (the source does not wrap that call). -/
theorem sqlalchemy_init_failures (table quote : String)
    (fieldnames : Option (List String)) (engineResult : Except String Nat) (msg : String) :
    SQLAlchemy.init table false engineResult quote fieldnames
      = .error (.outputError
          "Lack of SQLAlchemy module, try to execute `pip install SQLAlchemy` install it")
    ∧ (engineResult = .error msg →
        SQLAlchemy.init table true engineResult quote fieldnames = .error (.exn msg))
    ∧ (engineResult = .error msg →
        ∀ st, ¬SQLAlchemy.init table true engineResult quote fieldnames = .ok st) := by
  refine ⟨rfl, ?_, ?_⟩
  · intro h
    rw [SQLAlchemy.init.eq_def, if_neg (by decide), h]
  · intro h st
    rw [SQLAlchemy.init.eq_def, if_neg (by decide), h]
    exact fun hcontra => Except.noConfusion hcontra

/-- C5: on a database sink with table `events`, quote `"` and fields
`["a","b"]`, `catch` builds exactly the statement
`INSERT INTO "events" ("a","b") VALUES (:a,:b)`, and every later `send`
and `sendmany` executes that stored statement and leaves it unchanged. -/
theorem sqlalchemy_catch_statement (s : SQLAlchemy) (agent : AgentCtx)
    (hq : s.quote = "\"") (ht : s.tableName = "events") (hf : s.fields = some ["a", "b"]) :
    (s.catch agent).sql = some "INSERT INTO \"events\" (\"a\",\"b\") VALUES (:a,:b)"
    ∧ (∀ t e, ∃ s2 h1 h2, (s.catch agent).send t e = .ok (s2,
          [.sqlExecute h1 "INSERT INTO \"events\" (\"a\",\"b\") VALUES (:a,:b)" [e.raw_data],
           .sqlCommit h2, .logInfo "SQL send 1"])
        ∧ s2.sql = some "INSERT INTO \"events\" (\"a\",\"b\") VALUES (:a,:b)")
    ∧ (∀ t es, ∃ s2 h1 h2, (s.catch agent).sendmany t es = .ok (s2,
          [.sqlExecute h1 "INSERT INTO \"events\" (\"a\",\"b\") VALUES (:a,:b)"
             (es.map Event.raw_data),
           .sqlCommit h2, .logInfo ("SQL send " ++ toString es.length)])
        ∧ s2.sql = some "INSERT INTO \"events\" (\"a\",\"b\") VALUES (:a,:b)") := by
  have hsql : (s.catch agent).sql
      = some "INSERT INTO \"events\" (\"a\",\"b\") VALUES (:a,:b)" := by
    simp only [SQLAlchemy.catch, SQLAlchemy.table, hq, ht, hf]
    rfl
  refine ⟨hsql, ?_, ?_⟩
  · intro t e
    exact ⟨(((s.catch agent).session t).2.session t).2, ((s.catch agent).session t).1,
      (((s.catch agent).session t).2.session t).1,
      send_eval _ _ t e _ _ _ _ hsql rfl rfl,
      by rw [session_sql, session_sql, hsql]⟩
  · intro t es
    exact ⟨(((s.catch agent).session t).2.session t).2, ((s.catch agent).session t).1,
      (((s.catch agent).session t).2.session t).1,
      sendmany_eval _ _ t es _ _ _ _ hsql rfl rfl,
      by rw [session_sql, session_sql, hsql]⟩

/-- Witness for C5 at the claim's concrete configuration. -/
theorem sqlalchemy_catch_statement_witness :
    (SQLAlchemy.catch { quote := "\"", fields := some ["a", "b"], engine := 0, sessionH := none, timer := none, tableName := "events", sql := none, nextHandle := 0, closed := [], agent := none } { fieldnames := [] }).sql
      = some "INSERT INTO \"events\" (\"a\",\"b\") VALUES (:a,:b)" :=
  (sqlalchemy_catch_statement { quote := "\"", fields := some ["a", "b"], engine := 0, sessionH := none, timer := none, tableName := "events", sql := none, nextHandle := 0, closed := [], agent := none } { fieldnames := [] } rfl rfl rfl).1

/-- C2: two sends within 900 seconds of the current session's creation time
reuse the same session handle (and leave the sink unchanged); a send
strictly more than 900 seconds after creation closes the old session and
runs on a freshly created, distinct handle, with the creation timestamp
reset to the send time. -/
theorem sqlalchemy_session_ttl (s : SQLAlchemy) (h0 t0 t1 t2 : Nat) (q : String) (e : Event)
    (hh : s.sessionH = some h0) (ht : s.timer = some t0) (hq : s.sql = some q)
    (hfresh : ¬s.nextHandle = h0) :
    (t1 - t0 ≤ 900 → t2 - t0 ≤ 900 →
      s.send t1 e = .ok (s, [.sqlExecute h0 q [e.raw_data], .sqlCommit h0,
        .logInfo "SQL send 1"])
      ∧ s.send t2 e = .ok (s, [.sqlExecute h0 q [e.raw_data], .sqlCommit h0,
        .logInfo "SQL send 1"]))
    ∧ (t1 - t0 > 900 →
      ∃ s2, s.send t1 e = .ok (s2, [.sqlExecute s.nextHandle q [e.raw_data],
          .sqlCommit s.nextHandle, .logInfo "SQL send 1"])
        ∧ s2.sessionH = some s.nextHandle
        ∧ ¬s.nextHandle = h0
        ∧ s2.timer = some t1
        ∧ h0 ∈ s2.closed) := by
  constructor
  · intro hle1 hle2
    have e1 : s.session t1 = (h0, s) := session_reuse s h0 t0 t1 hh ht hle1
    have e2 : s.session t2 = (h0, s) := session_reuse s h0 t0 t2 hh ht hle2
    exact ⟨send_eval s q t1 e h0 s h0 s hq e1 e1,
      send_eval s q t2 e h0 s h0 s hq e2 e2⟩
  · intro hgt
    have e1 := session_replace s h0 t0 t1 hh ht hgt
    have e2 : ({ s with
          closed := h0 :: s.closed
          sessionH := some s.nextHandle
          timer := some t1
          nextHandle := s.nextHandle + 1 } : SQLAlchemy).session t1
        = (s.nextHandle, { s with
          closed := h0 :: s.closed
          sessionH := some s.nextHandle
          timer := some t1
          nextHandle := s.nextHandle + 1 }) :=
      session_reuse _ s.nextHandle t1 t1 rfl rfl (by omega)
    refine ⟨{ s with
        closed := h0 :: s.closed
        sessionH := some s.nextHandle
        timer := some t1
        nextHandle := s.nextHandle + 1 },
      send_eval s q t1 e s.nextHandle _ s.nextHandle _ hq e1 e2, rfl, hfresh, rfl, ?_⟩
    exact List.mem_cons_self h0 s.closed

/-- Witness for C2: handle 5 created at time 1000 is reused at times 1100
and 1500; at time 2000 it is closed and replaced by handle 6 with the
timer reset. -/
theorem sqlalchemy_session_ttl_witness :
    (({ quote := "q", fields := none, engine := 0, sessionH := some 5, timer := some 1000, tableName := "t", sql := some "Q", nextHandle := 6, closed := [], agent := none } : SQLAlchemy).send 1100 ⟨"k", "d", Json.null⟩
      = .ok ({ quote := "q", fields := none, engine := 0, sessionH := some 5, timer := some 1000, tableName := "t", sql := some "Q", nextHandle := 6, closed := [], agent := none },
        [.sqlExecute 5 "Q" [Json.null], .sqlCommit 5, .logInfo "SQL send 1"]))
    ∧ ∃ s2, ({ quote := "q", fields := none, engine := 0, sessionH := some 5, timer := some 1000, tableName := "t", sql := some "Q", nextHandle := 6, closed := [], agent := none } : SQLAlchemy).send 2000 ⟨"k", "d", Json.null⟩
        = .ok (s2, [.sqlExecute 6 "Q" [Json.null], .sqlCommit 6, .logInfo "SQL send 1"])
      ∧ s2.sessionH = some 6 ∧ ¬(6 : Nat) = 5 ∧ s2.timer = some 2000 ∧ 5 ∈ s2.closed := by
  constructor
  · exact ((sqlalchemy_session_ttl { quote := "q", fields := none, engine := 0, sessionH := some 5, timer := some 1000, tableName := "t", sql := some "Q", nextHandle := 6, closed := [], agent := none } 5 1000 1100 1500 "Q"
      ⟨"k", "d", Json.null⟩ rfl rfl rfl (by decide)).1 (by decide) (by decide)).1
  · exact (sqlalchemy_session_ttl { quote := "q", fields := none, engine := 0, sessionH := some 5, timer := some 1000, tableName := "t", sql := some "Q", nextHandle := 6, closed := [], agent := none } 5 1000 2000 0 "Q"
      ⟨"k", "d", Json.null⟩ rfl rfl rfl (by decide)).2 (by decide)

/-- Witness for C7's amended theorem at a concrete failing engine. -/
theorem sqlalchemy_init_failures_witness :
    SQLAlchemy.init "events" false (.ok 0) "`" none
      = .error (.outputError
          "Lack of SQLAlchemy module, try to execute `pip install SQLAlchemy` install it")
    ∧ SQLAlchemy.init "events" true (.error "connection refused") "`" none
      = .error (.exn "connection refused") := by
  refine ⟨(sqlalchemy_init_failures "events" "`" none (.ok 0) "x").1, ?_⟩
  exact (sqlalchemy_init_failures "events" "`" none (.error "connection refused")
    "connection refused").2.1 rfl

/-- C4: rotating an attached file sink to a fresh path moves the previously
written rows intact to the new path, reopens a fresh file at the sink's own
path containing only the header row, and subsequent sends append to that
fresh file. -/
theorem csv_archive_rotation (c : Csv) (fs : FileSys) (newPath : String)
    (rows : List (List String)) (fns : List String)
    (hne : ¬newPath = c.filename)
    (hrows : fsLookup fs c.filename = some rows)
    (hfns : c.fieldnames = some fns) :
    ∃ c' fs', c.archive fs newPath = .ok (c', fs')
      ∧ fsLookup fs' newPath = some rows
      ∧ fsLookup fs' c.filename = some [fns]
      ∧ c'.filename = c.filename
      ∧ c'.writer = some fns
      ∧ (∀ e kvs, e.raw_data = Json.obj kvs →
          kvs.all (fun kv => fns.contains kv.1) = true →
          ∃ fs2, c'.send fs' e = .ok (c', fs2, [.logInfo "OUTPUT INSERT CSV 1"])
            ∧ fsLookup fs2 c.filename = some [fns, csvCells fns kvs]) := by
  refine ⟨{ c with writer := some fns },
    fsAppend (fsSet (fsSet (fsRemove fs c.filename) newPath rows) c.filename []) c.filename fns,
    ?_, ?_, ?_, rfl, rfl, ?_⟩
  · rw [Csv.archive.eq_def, if_neg hne, hrows, hfns]
  · rw [fsLookup_append_ne _ _ _ _ hne, fsLookup_set_ne _ _ _ _ hne, fsLookup_set_self]
  · rw [fsLookup_append_self, fsLookup_set_self]
    rfl
  · intro e kvs he hkeys
    refine ⟨fsAppend (fsAppend (fsSet (fsSet (fsRemove fs c.filename) newPath rows)
      c.filename []) c.filename fns) c.filename (csvCells fns kvs), ?_, ?_⟩
    · rw [Csv.send, he, writerow_ok _ _ fns kvs rfl hkeys]
      rfl
    · rw [fsLookup_append_self, fsLookup_append_self, fsLookup_set_self]
      rfl

/-- Witness for C4: a sink at `out.csv` holding its header row, rotated to
`old.csv`. -/
theorem csv_archive_rotation_witness :
    (¬"old.csv" = "out.csv")
    ∧ ∃ c' fs', Csv.archive { filename := "out.csv", fieldnames := some ["a", "b"], writer := some ["a", "b"], agent := none } (fsSet fsEmpty "out.csv" [["a", "b"]]) "old.csv" = .ok (c', fs')
      ∧ fsLookup fs' "old.csv" = some [["a", "b"]]
      ∧ fsLookup fs' "out.csv" = some [["a", "b"]] := by
  refine ⟨by decide, ?_⟩
  obtain ⟨c', fs', h1, h2, h3, h4, h5, h6⟩ :=
    csv_archive_rotation { filename := "out.csv", fieldnames := some ["a", "b"], writer := some ["a", "b"], agent := none } (fsSet fsEmpty "out.csv" [["a", "b"]]) "old.csv" [["a", "b"]] ["a", "b"]
      (by decide) (by decide) rfl
  exact ⟨c', fs', h1, h2, h3⟩

/-- C1: the batch payload is `{'data': d, 'gzip': '1'}` with
`d = base64(gzip(utf8(json(list of raw payloads))))`, and base64-decoding
`d`, gunzipping and JSON-parsing recovers the original ordered list of raw
payloads. gzip is the external library: it enters as an abstract compressor
`gz`/decompressor `gunz` assumed to produce bytes and to invert on byte
lists, which the identity pair satisfies. -/
theorem sendmany_payload_roundtrip (gz gunz : List Nat → List Nat) (events : List Event)
    (hvalid : ∀ bs, (∀ b ∈ bs, b < 256) → ∀ b ∈ gz bs, b < 256)
    (hround : ∀ bs, (∀ b ∈ bs, b < 256) → gunz (gz bs) = bs) :
    HTTPRequest.sendmanyData gz events
      = Json.obj [("data", Json.str (HTTPRequest.package gz events)),
          ("gzip", Json.str "1")]
    ∧ decodePayload gunz (HTTPRequest.package gz events)
      = some (Json.arr (events.map Event.raw_data)) := by
  refine ⟨rfl, ?_⟩
  have hbytes : ∀ b ∈ utf8Encode (dumpChars (',' :: [' ']) (':' :: [' '])
      (Json.arr (events.map Event.raw_data))), b < 256 :=
    utf8Encode_lt256 _
  have hascii : asciiList (dumpChars (',' :: [' ']) (':' :: [' '])
      (Json.arr (events.map Event.raw_data))) :=
    dumpChars_ascii _ _ (by decide) (by decide) _
  rw [decodePayload, HTTPRequest.package]
  have hmk : (String.mk (b64encode (gz (utf8Encode
      (dumps ", " ": " (Json.arr (events.map Event.raw_data))).data)))).data
      = b64encode (gz (utf8Encode (dumpChars (',' :: [' ']) (':' :: [' '])
        (Json.arr (events.map Event.raw_data))))) := rfl
  rw [hmk, b64decode_encode _ (hvalid _ hbytes)]
  simp only [Option.some_bind]
  rw [hround _ hbytes, utf8Decode_encode hascii]
  simp only [Option.some_bind]
  exact loads_dumpChars [' '] [' '] (by decide) (by decide) _

/-- Witness for C1 with the identity compressor and one event carrying
`{"a": 1}`. -/
theorem sendmany_payload_roundtrip_witness :
    HTTPRequest.sendmanyData id [⟨"k", "d", Json.obj [("a", Json.num 1)]⟩]
      = Json.obj [("data", Json.str (HTTPRequest.package id
          [⟨"k", "d", Json.obj [("a", Json.num 1)]⟩])), ("gzip", Json.str "1")]
    ∧ decodePayload id (HTTPRequest.package id [⟨"k", "d", Json.obj [("a", Json.num 1)]⟩])
      = some (Json.arr [Json.obj [("a", Json.num 1)]]) :=
  sendmany_payload_roundtrip id id [⟨"k", "d", Json.obj [("a", Json.num 1)]⟩]
    (fun bs hbs => hbs) (fun bs hbs => rfl)

end Output
